import Mathlib

/-!
# ReWear: the points ledger, the item lifecycle and the swap transactions

A shallow embedding of the backend of the ReWear clothing exchange
(`backend/models/User.js`, `backend/models/Item.js`, `backend/models/Swap.js`,
`backend/routes/items.js`, `backend/routes/users.js`, `backend/routes/admin.js`)
and theorems about it.

Modelling conventions.

* A Mongoose document is a structure; a collection is a list of documents in
  insertion order. `findById` returns the first document with the given `_id`
  and `save` writes the in-memory document over the stored one with the same
  `_id`.
* JavaScript `Number` fields (`points`, `pointValue`, the `stats` counters) are
  integers in every operation of the backend and are modelled by `Int`, so a
  negative amount is a legal argument, as it is in the source.
* A method that may `throw` returns the outcome of the call together with the
  document as the call leaves it, so that what a failed call did to the document
  can be stated.
* Values the runtime generates (`ObjectId`s of new documents, `Date.now`) are
  explicit arguments.
* `req.user`, the document the authentication middleware attaches to a request
  (`middleware/auth.js` is not part of the sources), is an argument of each route.
-/

set_option autoImplicit false

namespace ReWear

/-! ## Data model -/

/-- A MongoDB object identifier. -/
abbrev ObjectId := Nat

/-- The `role` enumeration of `userSchema`. -/
inductive Role where
  | user
  | admin
  deriving DecidableEq, Repr

/-- The `status` enumeration of `itemSchema`. -/
inductive ItemStatus where
  | pending
  | available
  | swapped
  | rejected
  deriving DecidableEq, Repr

/-- The `status` enumeration of an embedded entry of `itemSchema.swapRequests`. -/
inductive RequestStatus where
  | pending
  | accepted
  | rejected
  deriving DecidableEq, Repr

/-- The `status` enumeration of `swapSchema`. -/
inductive SwapStatus where
  | pending
  | accepted
  | rejected
  | completed
  | cancelled
  deriving DecidableEq, Repr

/-- The `type` enumeration of `swapSchema`. -/
inductive SwapType where
  | direct_swap
  | point_redemption
  deriving DecidableEq, Repr

/-- The `stats` sub-document of `userSchema`. -/
structure Stats where
  itemsListed : Int := 0
  swapsCompleted : Int := 0
  pointsEarned : Int := 0
  pointsSpent : Int := 0
  deriving DecidableEq, Repr

/-- The names of the fields of `stats`, the first argument of `updateStats`. -/
inductive StatField where
  | itemsListed
  | swapsCompleted
  | pointsEarned
  | pointsSpent
  deriving DecidableEq, Repr

/-- A document of `userSchema` (the password and the free-text profile, which no
operation below reads or writes, are left out). -/
structure User where
  _id : ObjectId
  name : String := ""
  email : String := ""
  role : Role := Role.user
  points : Int := 50
  stats : Stats := {}
  deriving DecidableEq, Repr

/-- An embedded entry of `itemSchema.swapRequests`. -/
structure SwapRequest where
  _id : ObjectId
  requester : ObjectId
  message : String
  status : RequestStatus := RequestStatus.pending
  createdAt : Nat
  deriving DecidableEq, Repr

/-- A document of `itemSchema`. -/
structure Item where
  _id : ObjectId
  title : String := ""
  description : String := ""
  category : String := ""
  type : String := ""
  size : String := ""
  condition : String := ""
  images : List String := []
  tags : List String := []
  pointValue : Int
  uploadedBy : ObjectId
  status : ItemStatus := ItemStatus.pending
  swapRequests : List SwapRequest := []
  views : Int := 0
  deriving DecidableEq, Repr

/-- An entry of `swapSchema.conversation`. -/
structure ConversationEntry where
  sender : ObjectId
  message : String
  timestamp : Nat
  deriving DecidableEq, Repr

/-- A document of `swapSchema`. -/
structure Swap where
  _id : ObjectId
  itemRequested : ObjectId
  itemOffered : Option ObjectId := none
  requester : ObjectId
  owner : ObjectId
  type : SwapType
  status : SwapStatus := SwapStatus.pending
  message : Option String := none
  pointsUsed : Int := 0
  conversation : List ConversationEntry := []
  completedAt : Option Nat := none
  cancelledAt : Option Nat := none
  rejectedAt : Option Nat := none
  deriving DecidableEq, Repr

/-- The outcome of a method call on a document: what the call returned or threw,
and the document as the call leaves it. -/
structure Call (α : Type) where
  result : Except String Unit
  doc : α

/-! ## `models/User.js` -/

/-- The JavaScript expression `v || 0` on a number. -/
def orZero (v : Int) : Int := if v = 0 then 0 else v

/-- Read `stats[field]`. -/
def Stats.get (s : Stats) : StatField → Int
  | StatField.itemsListed => s.itemsListed
  | StatField.swapsCompleted => s.swapsCompleted
  | StatField.pointsEarned => s.pointsEarned
  | StatField.pointsSpent => s.pointsSpent

/-- Assign `stats[field] = v`. -/
def Stats.set (s : Stats) (field : StatField) (v : Int) : Stats :=
  match field with
  | StatField.itemsListed => { s with itemsListed := v }
  | StatField.swapsCompleted => { s with swapsCompleted := v }
  | StatField.pointsEarned => { s with pointsEarned := v }
  | StatField.pointsSpent => { s with pointsSpent := v }

/-- `userSchema.methods.updateStats(field, increment = 1)`:
`this.stats[field] = (this.stats[field] || 0) + increment`. -/
def User.updateStats (u : User) (field : StatField) (increment : Int := 1) : User :=
  { u with stats := u.stats.set field (orZero (u.stats.get field) + increment) }

/-- `userSchema.methods.addPoints(amount)`:
`this.points += amount; this.stats.pointsEarned += amount`. -/
def User.addPoints (u : User) (amount : Int) : User :=
  { u with
    points := u.points + amount
    stats := { u.stats with pointsEarned := u.stats.pointsEarned + amount } }

/-- `userSchema.methods.deductPoints(amount)`: throws `Insufficient points` when
`this.points < amount`, before anything is assigned; otherwise
`this.points -= amount; this.stats.pointsSpent += amount`. -/
def User.deductPoints (u : User) (amount : Int) : Call User :=
  if u.points < amount then
    { result := Except.error "Insufficient points", doc := u }
  else
    { result := Except.ok (),
      doc := { u with
        points := u.points - amount
        stats := { u.stats with pointsSpent := u.stats.pointsSpent + amount } } }

/-! ## `models/Item.js` -/

/-- The callback of `this.swapRequests.find` in `addSwapRequest`:
`req.requester.toString() === requesterId.toString() && req.status === 'pending'`. -/
def isPendingBy (requesterId : ObjectId) (req : SwapRequest) : Bool :=
  req.requester == requesterId && req.status == RequestStatus.pending

/-- `itemSchema.methods.addSwapRequest(requesterId, message)`: throws when the
requester already has a pending entry, otherwise pushes
`{ requester: requesterId, message: message || '', status: 'pending' }`.
`subId` and `now` are the `_id` and the `createdAt` default the new entry gets. -/
def Item.addSwapRequest (item : Item) (requesterId : ObjectId) (message : Option String)
    (subId : ObjectId) (now : Nat) : Call Item :=
  match item.swapRequests.find? (isPendingBy requesterId) with
  | some _ =>
    { result := Except.error "You already have a pending swap request for this item",
      doc := item }
  | none =>
    { result := Except.ok (),
      doc := { item with
        swapRequests := item.swapRequests ++
          [{ _id := subId, requester := requesterId, message := message.getD "",
             status := RequestStatus.pending, createdAt := now }] } }

/-- Assign `status` to the first entry whose `_id` is `requestId`
(`this.swapRequests.id(requestId)` followed by `request.status = status`);
`none` when there is no such entry. -/
def setRequestStatus (requestId : ObjectId) (status : RequestStatus) :
    List SwapRequest → Option (List SwapRequest)
  | [] => none
  | r :: rs =>
    if r._id = requestId then some ({ r with status := status } :: rs)
    else (setRequestStatus requestId status rs).map (fun rs1 => r :: rs1)

/-- `itemSchema.methods.updateSwapRequest(requestId, status)`. -/
def Item.updateSwapRequest (item : Item) (requestId : ObjectId) (status : RequestStatus) :
    Call Item :=
  match setRequestStatus requestId status item.swapRequests with
  | none => { result := Except.error "Swap request not found", doc := item }
  | some rs => { result := Except.ok (), doc := { item with swapRequests := rs } }

/-- The number of pending entries of `requesterId` among the embedded requests. -/
def pendingCount (requesterId : ObjectId) (reqs : List SwapRequest) : Nat :=
  (reqs.filter (isPendingBy requesterId)).length

/-- The data-model invariant of an item: at most one pending embedded swap
request per requester. -/
def Item.onePendingPerRequester (item : Item) : Prop :=
  ∀ requesterId : ObjectId, pendingCount requesterId item.swapRequests ≤ 1

/-! ## The store -/

/-- The three collections of the database. -/
structure Db where
  users : List User := []
  items : List Item := []
  swaps : List Swap := []
  deriving DecidableEq, Repr

/-- The call `User.findById(id)`. -/
def Db.findUser (db : Db) (id : ObjectId) : Option User :=
  db.users.find? (fun u => u._id == id)

/-- The call `Item.findById(id)`. -/
def Db.findItem (db : Db) (id : ObjectId) : Option Item :=
  db.items.find? (fun i => i._id == id)

/-- The call `user.save()` on a loaded user document. -/
def Db.saveUser (db : Db) (u : User) : Db :=
  { db with users := db.users.map (fun x => if x._id == u._id then u else x) }

/-- The call `item.save()` on a loaded item document. -/
def Db.saveItem (db : Db) (i : Item) : Db :=
  { db with items := db.items.map (fun x => if x._id == i._id then i else x) }

/-- The call `Swap.create(doc)`: the new record goes to the end of the collection. -/
def Db.createSwap (db : Db) (s : Swap) : Db :=
  { db with swaps := db.swaps ++ [s] }

/-- The `length` of a JavaScript string, which the `maxlength` validators
compare: the number of UTF-16 code units, two for a character beyond the basic
plane. -/
def jsLength (s : String) : Nat :=
  (s.toList.map (fun c => if c.toNat < 65536 then 1 else 2)).sum

/-! ## `routes/items.js` -/

/-- What a route sends back: the HTTP status, the `message`, and the further
fields of the JSON body that some responses carry. -/
structure Response where
  status : Nat
  message : String
  required : Option Int := none
  available : Option Int := none
  swap : Option Swap := none
  pointsRemaining : Option Int := none
  item : Option Item := none
  deriving DecidableEq, Repr

/-- The `catch` block of `POST /api/items/:id/redeem` for a thrown `Error` with
message `msg` (a `CastError` cannot arise from a well-formed `ObjectId`). -/
def redeemCatch (msg : String) : Response :=
  if msg = "Insufficient points" then { status := 400, message := msg }
  else { status := 500, message := "Server error while redeeming item" }

/-- `router.post('/:id/redeem')`, the point redemption of item `itemId` by
`reqUser`; `swapId` is the `_id` of the Swap record that `Swap.create` makes.
Reading `addPoints` on the `null` that `User.findById` returns for an unknown
owner throws a `TypeError`, which the `catch` block turns into a 500. -/
def redeem (db : Db) (reqUser : User) (itemId : ObjectId) (swapId : ObjectId) :
    Response × Db :=
  match db.findItem itemId with
  | none => ({ status := 404, message := "Item not found" }, db)
  | some item =>
    if item.status ≠ ItemStatus.available then
      ({ status := 400, message := "Item is not available for redemption" }, db)
    else if item.uploadedBy = reqUser._id then
      ({ status := 400, message := "Cannot redeem your own item" }, db)
    else if reqUser.points < item.pointValue then
      ({ status := 400, message := "Insufficient points",
         required := some item.pointValue, available := some reqUser.points }, db)
    else
      let c := reqUser.deductPoints item.pointValue
      match c.result with
      | Except.error msg => (redeemCatch msg, db)
      | Except.ok _ =>
        let user1 := c.doc
        let db1 := db.saveUser user1
        match db1.findUser item.uploadedBy with
        | none => (redeemCatch "Cannot read properties of null (reading addPoints)", db1)
        | some itemOwner =>
          let owner1 := itemOwner.addPoints item.pointValue
          let db2 := db1.saveUser owner1
          let swap : Swap :=
            { _id := swapId, itemRequested := item._id, requester := reqUser._id,
              owner := item.uploadedBy, type := SwapType.point_redemption,
              pointsUsed := item.pointValue, status := SwapStatus.completed }
          let db3 := db2.createSwap swap
          let db4 := db3.saveItem { item with status := ItemStatus.swapped }
          let user2 := user1.updateStats StatField.swapsCompleted
          let db5 := db4.saveUser user2
          let owner2 := owner1.updateStats StatField.swapsCompleted
          let db6 := db5.saveUser owner2
          ({ status := 200, message := "Item redeemed successfully", swap := some swap,
             pointsRemaining := some (user2.points - item.pointValue) }, db6)

/-- The `catch` block of `POST /api/items/:id/swap` for a thrown `Error` with
message `msg`: `error.message.includes('already have a pending')` gives a 400
carrying the message, anything else a 500. -/
def swapCatch (msg : String) : Response :=
  if msg = "You already have a pending swap request for this item" then
    { status := 400, message := msg }
  else { status := 500, message := "Server error while creating swap request" }

/-- `router.post('/:id/swap')`, the swap request of `reqUser` for item `itemId`
with the body fields `message` and `offeredItemId` (`none` for an absent or
empty one). `swapId`, `subId` and `now` are the `_id` of the new Swap record and
the `_id` and `createdAt` of the new embedded entry. `Swap.create` validates
`message` against `maxlength: 500` and throws a `ValidationError` beyond it. -/
def requestSwap (db : Db) (reqUser : User) (itemId : ObjectId) (message : Option String)
    (offeredItemId : Option ObjectId) (swapId subId : ObjectId) (now : Nat) :
    Response × Db :=
  match db.findItem itemId with
  | none => ({ status := 404, message := "Item not found" }, db)
  | some item =>
    if item.status ≠ ItemStatus.available then
      ({ status := 400, message := "Item is not available for swap" }, db)
    else if item.uploadedBy = reqUser._id then
      ({ status := 400, message := "Cannot swap your own item" }, db)
    else
      let offeredOk : Bool :=
        match offeredItemId with
        | none => true
        | some oid =>
          match db.findItem oid with
          | none => false
          | some offeredItem => offeredItem.uploadedBy == reqUser._id
      if offeredOk = false then
        ({ status := 400, message := "Invalid offered item" }, db)
      else if jsLength (message.getD "") > 500 then
        (swapCatch "Swap validation failed: message: Message cannot be more than 500 characters",
         db)
      else
        let swap : Swap :=
          { _id := swapId, itemRequested := item._id, itemOffered := offeredItemId,
            requester := reqUser._id, owner := item.uploadedBy,
            type := SwapType.direct_swap, message := some (message.getD "") }
        let db1 := db.createSwap swap
        let c := item.addSwapRequest reqUser._id message subId now
        match c.result with
        | Except.error msg => (swapCatch msg, db1)
        | Except.ok _ =>
          ({ status := 201, message := "Swap request sent successfully", swap := some swap },
           db1.saveItem c.doc)

/-! ## `models/Swap.js` -/

/-- `swapSchema.methods.updateStatus(newStatus)`: `this.status = newStatus`, then
the `switch` that stamps `completedAt`, `cancelledAt` or `rejectedAt` with
`new Date()` (here `now`). -/
def Swap.updateStatus (s : Swap) (newStatus : SwapStatus) (now : Nat) : Swap :=
  match newStatus with
  | SwapStatus.completed => { s with status := newStatus, completedAt := some now }
  | SwapStatus.cancelled => { s with status := newStatus, cancelledAt := some now }
  | SwapStatus.rejected => { s with status := newStatus, rejectedAt := some now }
  | SwapStatus.pending => { s with status := newStatus }
  | SwapStatus.accepted => { s with status := newStatus }

/-- The state machine of a Swap record as the specification draws it:
`pending → accepted → completed`, `pending → rejected`, `pending → cancelled`. -/
def allowedSwapTransition : SwapStatus → SwapStatus → Bool
  | SwapStatus.pending, SwapStatus.accepted => true
  | SwapStatus.accepted, SwapStatus.completed => true
  | SwapStatus.pending, SwapStatus.rejected => true
  | SwapStatus.pending, SwapStatus.cancelled => true
  | _, _ => false

/-- The terminal timestamp that goes with the status of a Swap record is set:
`completedAt` for `completed`, `rejectedAt` for `rejected`, `cancelledAt` for
`cancelled`; nothing is asked of a `pending` or `accepted` record. -/
def Swap.terminalStamped (s : Swap) : Bool :=
  match s.status with
  | SwapStatus.completed => s.completedAt.isSome
  | SwapStatus.rejected => s.rejectedAt.isSome
  | SwapStatus.cancelled => s.cancelledAt.isSome
  | SwapStatus.pending => true
  | SwapStatus.accepted => true

/-- The call `Swap.findById(id)`. -/
def Db.findSwap (db : Db) (id : ObjectId) : Option Swap :=
  db.swaps.find? (fun s => s._id == id)

/-- The call `swap.save()` on a loaded Swap record. -/
def Db.saveSwap (db : Db) (s : Swap) : Db :=
  { db with swaps := db.swaps.map (fun x => if x._id == s._id then s else x) }

/-! ## `routes/users.js` -/

/-- The `catch` block of `PUT /api/users/swap-requests/:id` for a thrown
`TypeError`. -/
def respondCatch : Response :=
  { status := 500, message := "Server error while responding to swap request" }

/-- The item writes of the accept branch:
`if (swap.type === 'direct_swap' && swap.itemOffered)` both populated items get
`status = 'swapped'` and are saved, otherwise only `swap.itemRequested`.
`none` stands for the `TypeError` of assigning `status` on a `null`
`swap.itemRequested`, which is thrown before any item is written. -/
def acceptItems (db : Db) (swap : Swap) (itemRequested itemOffered : Option Item) :
    Option Db :=
  if swap.type = SwapType.direct_swap ∧ itemOffered.isSome = true then
    match itemRequested, itemOffered with
    | some requested, some offered =>
      some ((db.saveItem { requested with status := ItemStatus.swapped }).saveItem
        { offered with status := ItemStatus.swapped })
    | _, _ => none
  else
    match itemRequested with
    | some requested => some (db.saveItem { requested with status := ItemStatus.swapped })
    | none => none

/-- The user writes of the accept branch: `updateStats('swapsCompleted')` on the
populated requester and owner, then, `if (swap.type === 'direct_swap')`,
`addPoints(5)` on both. `none` stands for the `TypeError` of calling
`updateStats` on a `null` `swap.requester`, which is thrown before any user is
written. -/
def acceptUsers (db : Db) (swap : Swap) (requester : Option User) (owner : User) :
    Option Db :=
  match requester with
  | none => none
  | some requester =>
    let requester1 := requester.updateStats StatField.swapsCompleted
    let db1 := db.saveUser requester1
    let owner1 := owner.updateStats StatField.swapsCompleted
    let db2 := db1.saveUser owner1
    if swap.type = SwapType.direct_swap then
      some ((db2.saveUser (requester1.addPoints 5)).saveUser (owner1.addPoints 5))
    else some db2

/-- `router.put('/swap-requests/:id')`, the answer of `reqUser` to the Swap
record `swapId` with the body field `action`. The four `populate` calls load the
requested item, the offered item, the requester and the owner (`null` for an
absent reference or a reference to a missing document); reading `_id` on a
`null` `swap.owner` throws a `TypeError`, which the `catch` block turns into
a 500. -/
def respond (db : Db) (reqUser : User) (swapId : ObjectId) (action : String) (now : Nat) :
    Response × Db :=
  if ¬ (action = "accept" ∨ action = "reject") then
    ({ status := 400, message := "Invalid action. Use accept or reject" }, db)
  else
    match db.findSwap swapId with
    | none => ({ status := 404, message := "Swap request not found" }, db)
    | some swap =>
      let itemRequested := db.findItem swap.itemRequested
      let itemOffered := swap.itemOffered.bind db.findItem
      let requester := db.findUser swap.requester
      match db.findUser swap.owner with
      | none => (respondCatch, db)
      | some owner =>
        if owner._id ≠ reqUser._id then
          ({ status := 403, message := "Not authorized to respond to this swap request" }, db)
        else if swap.status ≠ SwapStatus.pending then
          ({ status := 400, message := "Swap request is no longer pending" }, db)
        else if action = "accept" then
          let swap1 := swap.updateStatus SwapStatus.accepted now
          let db1 := db.saveSwap swap1
          match acceptItems db1 swap1 itemRequested itemOffered with
          | none => (respondCatch, db1)
          | some db2 =>
            match acceptUsers db2 swap1 requester owner with
            | none => (respondCatch, db2)
            | some db3 =>
              ({ status := 200, message := "Swap request accepted successfully",
                 swap := some swap1 }, db3)
        else
          let swap1 := swap.updateStatus SwapStatus.rejected now
          ({ status := 200, message := "Swap request rejected", swap := some swap1 },
           db.saveSwap swap1)

/-! ## `routes/admin.js` -/

/-- `router.post('/items/:id/approve')` (the route is mounted behind the
`protect` and `adminOnly` middleware): a pending item becomes available and is
saved, then its uploader, `if (user)`, gets `addPoints(10)`. -/
def approve (db : Db) (itemId : ObjectId) : Response × Db :=
  match db.findItem itemId with
  | none => ({ status := 404, message := "Item not found" }, db)
  | some item =>
    if item.status ≠ ItemStatus.pending then
      ({ status := 400, message := "Item is not pending approval" }, db)
    else
      let item1 : Item := { item with status := ItemStatus.available }
      let db1 := db.saveItem item1
      let db2 :=
        match db1.findUser item.uploadedBy with
        | some user => db1.saveUser (user.addPoints 10)
        | none => db1
      ({ status := 200, message := "Item approved successfully", item := some item1 }, db2)

/-- An item document in memory: the paths that `itemSchema` declares, and
`rejectionReason`, a property the reject route assigns although the schema does
not declare it. -/
structure ItemDoc where
  fields : Item
  rejectionReason : Option String := none
  deriving DecidableEq, Repr

/-- The call `item.save()` on an item document in memory: the schema is strict
(the Mongoose default), so only the declared paths are written. -/
def Db.saveItemDoc (db : Db) (d : ItemDoc) : Db := db.saveItem d.fields

/-- `router.post('/items/:id/reject')` with the body field `reason` (`none` for
an absent or empty one): `item.status = 'rejected'`,
`if (reason) item.rejectionReason = reason`, `item.save()`; the response carries
the JSON form of the document, which has the declared paths only. -/
def reject (db : Db) (itemId : ObjectId) (reason : Option String) : Response × Db :=
  match db.findItem itemId with
  | none => ({ status := 404, message := "Item not found" }, db)
  | some item =>
    if item.status ≠ ItemStatus.pending then
      ({ status := 400, message := "Item is not pending approval" }, db)
    else
      let doc : ItemDoc := { fields := { item with status := ItemStatus.rejected } }
      let doc1 : ItemDoc :=
        match reason with
        | some r => { doc with rejectionReason := some r }
        | none => doc
      ({ status := 200, message := "Item rejected", item := some doc1.fields },
       db.saveItemDoc doc1)

/-- The filter of the `Swap.countDocuments` call of the admin delete route:
`$or: [{ itemRequested: id }, { itemOffered: id }]` together with
`status: { $in: ['pending', 'accepted'] }`. -/
def isActiveSwapOf (id : ObjectId) (s : Swap) : Bool :=
  (s.itemRequested == id || s.itemOffered == some id) &&
    (s.status == SwapStatus.pending || s.status == SwapStatus.accepted)

/-- The call `Item.findByIdAndDelete(id)`: the document found by `_id` is taken
out of the collection. -/
def Db.deleteItem (db : Db) (id : ObjectId) : Db :=
  { db with items := db.items.eraseP (fun x => x._id == id) }

/-- `router.delete('/items/:id')` of the admin routes. -/
def adminDelete (db : Db) (itemId : ObjectId) : Response × Db :=
  match db.findItem itemId with
  | none => ({ status := 404, message := "Item not found" }, db)
  | some item =>
    let activeSwaps := (db.swaps.filter (isActiveSwapOf item._id)).length
    if activeSwaps > 0 then
      ({ status := 400, message := "Cannot delete item with active swap requests" }, db)
    else
      ({ status := 200, message := "Item deleted successfully" }, db.deleteItem itemId)

/-- The role a body value names, if it is one of `['user', 'admin']`. -/
def parseRole (role : String) : Option Role :=
  if role = "user" then some Role.user
  else if role = "admin" then some Role.admin
  else none

/-- The call `User.countDocuments({ role: 'admin' })`. -/
def Db.adminCount (db : Db) : Nat :=
  (db.users.filter (fun u => u.role == Role.admin)).length

/-- `router.put('/users/:id/role')` with the body field `role`. -/
def updateRole (db : Db) (userId : ObjectId) (role : String) : Response × Db :=
  match parseRole role with
  | none => ({ status := 400, message := "Invalid role" }, db)
  | some newRole =>
    match db.findUser userId with
    | none => ({ status := 404, message := "User not found" }, db)
    | some user =>
      if user.role = Role.admin ∧ newRole = Role.user ∧ db.adminCount ≤ 1 then
        ({ status := 400, message := "Cannot remove the last admin user" }, db)
      else
        ({ status := 200, message := "User role updated to " ++ role },
         db.saveUser { user with role := newRole })

/-! ## `routes/items.js`: delete and view -/

/-- `router.delete('/:id')` of the item routes, the delete by the owner: the
only check besides ownership is
`item.swapRequests.some(req => req.status === 'pending')`. -/
def ownerDelete (db : Db) (reqUser : User) (itemId : ObjectId) : Response × Db :=
  match db.findItem itemId with
  | none => ({ status := 404, message := "Item not found" }, db)
  | some item =>
    if item.uploadedBy ≠ reqUser._id then
      ({ status := 403, message := "Not authorized to delete this item" }, db)
    else if item.swapRequests.any (fun r => r.status == RequestStatus.pending) = true then
      ({ status := 400, message := "Cannot delete item with pending swap requests" }, db)
    else
      ({ status := 200, message := "Item deleted successfully" }, db.deleteItem itemId)

/-- `itemSchema.methods.incrementViews()`: `this.views += 1`. -/
def Item.incrementViews (item : Item) : Item := { item with views := item.views + 1 }

/-- `router.get('/:id')`, the view of one item by `reqUser` (`none` for an
anonymous request, which `optionalAuth` lets through). `populate('uploadedBy')`
loads the uploader, `null` if there is no such user, and then
`item.uploadedBy._id` throws for a signed-in viewer; the `catch` block answers
500. -/
def viewItem (db : Db) (reqUser : Option User) (itemId : ObjectId) : Response × Db :=
  match db.findItem itemId with
  | none => ({ status := 404, message := "Item not found" }, db)
  | some item =>
    match reqUser with
    | none =>
      let item1 := item.incrementViews
      ({ status := 200, message := "", item := some item1 }, db.saveItem item1)
    | some user =>
      match db.findUser item.uploadedBy with
      | none => ({ status := 500, message := "Server error while fetching item" }, db)
      | some uploader =>
        if user._id ≠ uploader._id then
          let item1 := item.incrementViews
          ({ status := 200, message := "", item := some item1 }, db.saveItem item1)
        else ({ status := 200, message := "", item := some item }, db)

/-! ## `routes/items.js`: create and update -/

/-- The `enum` of `category` in `itemSchema`. -/
def categories : List String :=
  ["Tops", "Bottoms", "Dresses", "Outerwear", "Shoes", "Accessories", "Activewear", "Formal",
   "Casual"]

/-- The `enum` of `size` in `itemSchema`. -/
def sizes : List String :=
  ["XS", "S", "M", "L", "XL", "XXL", "6", "8", "10", "12", "14", "16"]

/-- The `enum` of `condition` in `itemSchema`. -/
def conditions : List String := ["Like New", "Excellent", "Good", "Fair"]

/-- The types that `GET /api/items/meta/categories` lists, category by category;
`itemSchema` declares `type` as a required string without an `enum`. -/
def categoryTypes : List (String × List String) :=
  [("Tops", ["T-shirt", "Blouse", "Sweater", "Tank Top", "Hoodie", "Cardigan"]),
   ("Bottoms", ["Jeans", "Trousers", "Shorts", "Skirt", "Leggings"]),
   ("Dresses", ["Casual Dress", "Formal Dress", "Summer Dress", "Maxi Dress"]),
   ("Outerwear", ["Jacket", "Coat", "Blazer", "Vest"]),
   ("Shoes", ["Sneakers", "Boots", "Sandals", "Heels", "Flats"]),
   ("Accessories", ["Bag", "Hat", "Scarf", "Belt", "Jewelry"]),
   ("Activewear", ["Sports Bra", "Workout Pants", "Athletic Shorts"]),
   ("Formal", ["Suit", "Evening Dress", "Formal Shirt"]),
   ("Casual", ["Casual Shirt", "Casual Pants", "Casual Dress"])]

/-- Every type that the categories route lists. -/
def listedTypes : List String := (categoryTypes.map Prod.snd).flatten

/-- The body of a create or update request: the nine keys the routes read
(`none` for an absent key; `pointValue` is the whole number `parseInt` reads),
and four keys of the same names as the remaining paths of `itemSchema`, which a
client is free to send. -/
structure ItemBody where
  title : Option String := none
  description : Option String := none
  category : Option String := none
  type : Option String := none
  size : Option String := none
  condition : Option String := none
  images : Option (List String) := none
  tags : Option (List String) := none
  pointValue : Option Int := none
  status : Option ItemStatus := none
  uploadedBy : Option ObjectId := none
  swapRequests : Option (List SwapRequest) := none
  views : Option Int := none
  deriving DecidableEq, Repr

/-- The characters that `String.prototype.trim` strips: the white space of
ECMAScript (tab, vertical tab, form feed, space, no-break space, the byte order
mark and the space separators of Unicode) and its line terminators (line feed,
carriage return, line separator, paragraph separator), given by code point. -/
def isTrimmed (c : Char) : Bool :=
  c.toNat ∈ [9, 10, 11, 12, 13, 32, 160, 5760, 8232, 8233, 8239, 8287, 12288, 65279] ||
    (8192 ≤ c.toNat && c.toNat ≤ 8202)

/-- The JavaScript method `String.prototype.trim`: the string without the white
space at its two ends. -/
def trim (s : String) : String :=
  String.mk (((s.toList.dropWhile isTrimmed).reverse.dropWhile isTrimmed).reverse)

/-- The JavaScript test `!s` on an optional string: absent or empty. -/
def falsy (s : Option String) : Bool := s.getD "" == ""

/-- The validators of `title`: `required`, `maxlength: 100`. -/
def titleErrors (v : String) : List String :=
  if v = "" then ["Please provide a title"]
  else if jsLength v > 100 then ["Title cannot be more than 100 characters"]
  else []

/-- The validators of `description`: `required`, `maxlength: 500`. -/
def descriptionErrors (v : String) : List String :=
  if v = "" then ["Please provide a description"]
  else if jsLength v > 500 then ["Description cannot be more than 500 characters"]
  else []

/-- The message of the built-in `enum` validator. -/
def enumMessage (path v : String) : String :=
  "`" ++ v ++ "` is not a valid enum value for path `" ++ path ++ "`."

/-- The validators of `category`: `required`, `enum`. -/
def categoryErrors (v : String) : List String :=
  if v = "" then ["Please select a category"]
  else if v ∈ categories then []
  else [enumMessage "category" v]

/-- The validator of `type`: `required`. -/
def typeErrors (v : String) : List String :=
  if v = "" then ["Please specify the type"] else []

/-- The validators of `size`: `required`, `enum`. -/
def sizeErrors (v : String) : List String :=
  if v = "" then ["Please specify the size"]
  else if v ∈ sizes then []
  else [enumMessage "size" v]

/-- The validators of `condition`: `required`, `enum`. -/
def conditionErrors (v : String) : List String :=
  if v = "" then ["Please specify the condition"]
  else if v ∈ conditions then []
  else [enumMessage "condition" v]

/-- The validator of the elements of `images`: `required`. The schema puts no
bound on the number of elements. -/
def imagesErrors (v : List String) : List String :=
  if v.any (fun i => i == "") = true then ["Path `images` is required."] else []

/-- The validators of `pointValue`: `min: 1`, `max: 100`. -/
def pointValueErrors (v : Int) : List String :=
  if v < 1 then ["Point value must be at least 1"]
  else if v > 100 then ["Point value cannot be more than 100"]
  else []

/-- The validation of a new document: every validator runs. -/
def createErrors (item : Item) : List String :=
  titleErrors item.title ++ descriptionErrors item.description ++
    categoryErrors item.category ++ typeErrors item.type ++ sizeErrors item.size ++
    conditionErrors item.condition ++ imagesErrors item.images ++
    pointValueErrors item.pointValue

/-- The validators of one path run on `save` of a loaded document only if the
path is modified, that is if the value assigned differs from the value loaded. -/
def modifiedErrors {α : Type} [DecidableEq α] (loaded assigned : α)
    (errors : α → List String) : List String :=
  if assigned = loaded then [] else errors assigned

/-- The validation on `save` of the loaded document `item` after the
assignments that made it `item1`. -/
def updateErrors (item item1 : Item) : List String :=
  modifiedErrors item.title item1.title titleErrors ++
    modifiedErrors item.description item1.description descriptionErrors ++
    modifiedErrors item.category item1.category categoryErrors ++
    modifiedErrors item.type item1.type typeErrors ++
    modifiedErrors item.size item1.size sizeErrors ++
    modifiedErrors item.condition item1.condition conditionErrors ++
    modifiedErrors item.images item1.images imagesErrors ++
    modifiedErrors item.pointValue item1.pointValue pointValueErrors

/-- The call `Item.create(doc)`: the new document goes to the end of the
collection. -/
def Db.createItem (db : Db) (i : Item) : Db :=
  { db with items := db.items ++ [i] }

/-- The document that the create route passes to `Item.create`: the nine values
read from the body (`title` and `description` trimmed, `tags || []`) and
`uploadedBy: req.user._id`, under the `_id` `newId`; `status`, `swapRequests`
and `views` take the defaults of the schema. -/
def newItem (reqUser : User) (body : ItemBody) (newId : ObjectId) : Item :=
  { _id := newId, title := trim (body.title.getD ""),
    description := trim (body.description.getD ""),
    category := body.category.getD "", type := body.type.getD "",
    size := body.size.getD "", condition := body.condition.getD "",
    images := body.images.getD [], tags := body.tags.getD [],
    pointValue := body.pointValue.getD 0, uploadedBy := reqUser._id,
    status := ItemStatus.pending, swapRequests := [], views := 0 }

/-- `router.post('/')`, the creation of an item by `reqUser`; `newId` is the
`_id` of the new document. A `ValidationError` of `Item.create` is answered 400
with the messages joined; after the creation the route calls
`req.user.updateStats('itemsListed')`. -/
def createItem (db : Db) (reqUser : User) (body : ItemBody) (newId : ObjectId) :
    Response × Db :=
  if falsy body.title = true ∨ falsy body.description = true ∨ falsy body.category = true ∨
      falsy body.type = true ∨ falsy body.size = true ∨ falsy body.condition = true ∨
      body.images = none ∨ body.pointValue.getD 0 = 0 then
    ({ status := 400, message := "Please provide all required fields" }, db)
  else if (body.images.getD []).length = 0 then
    ({ status := 400, message := "Please provide at least one image" }, db)
  else if (body.images.getD []).length > 5 then
    ({ status := 400, message := "Maximum 5 images allowed" }, db)
  else if createErrors (newItem reqUser body newId) ≠ [] then
    ({ status := 400, message := ", ".intercalate (createErrors (newItem reqUser body newId)) },
     db)
  else
    let db1 := db.createItem (newItem reqUser body newId)
    let db2 := db1.saveUser (reqUser.updateStats StatField.itemsListed)
    ({ status := 201, message := "Item created successfully",
       item := db2.findItem newId }, db2)

/-- The `forEach` over `updateFields` of the update route: each of the nine
fields is assigned if `req.body[field] !== undefined`, `title` and `description`
trimmed. -/
def applyBody (item : Item) (body : ItemBody) : Item :=
  { item with
    title := (body.title.map trim).getD item.title
    description := (body.description.map trim).getD item.description
    category := body.category.getD item.category
    type := body.type.getD item.type
    size := body.size.getD item.size
    condition := body.condition.getD item.condition
    images := body.images.getD item.images
    tags := body.tags.getD item.tags
    pointValue := body.pointValue.getD item.pointValue }

/-- `router.put('/:id')`, the update of item `itemId` by `reqUser`. -/
def updateItem (db : Db) (reqUser : User) (itemId : ObjectId) (body : ItemBody) :
    Response × Db :=
  match db.findItem itemId with
  | none => ({ status := 404, message := "Item not found" }, db)
  | some item =>
    if item.uploadedBy ≠ reqUser._id then
      ({ status := 403, message := "Not authorized to update this item" }, db)
    else if ¬ (item.status = ItemStatus.pending ∨ item.status = ItemStatus.available) then
      ({ status := 400, message := "Cannot update item with current status" }, db)
    else
      let item1 := applyBody item body
      if updateErrors item item1 ≠ [] then
        ({ status := 400, message := ", ".intercalate (updateErrors item item1) }, db)
      else
        let db1 := db.saveItem item1
        ({ status := 200, message := "Item updated successfully",
           item := db1.findItem item._id }, db1)

/-- The constraints of the data model that the schema validators enforce on an
item: `category`, `size` and `condition` in their `enum`, and
`1 ≤ pointValue ≤ 100`. -/
def Item.fieldsValid (i : Item) : Prop :=
  i.category ∈ categories ∧ i.size ∈ sizes ∧ i.condition ∈ conditions ∧
    1 ≤ i.pointValue ∧ i.pointValue ≤ 100

/-- The paths of an item that the update route is claimed never to change. -/
def Item.frame (i : Item) : ItemStatus × ObjectId × List SwapRequest × Int :=
  (i.status, i.uploadedBy, i.swapRequests, i.views)

/-! ## Pagination -/

/-- The `pagination` object of the list routes. -/
structure Pagination where
  current : Nat
  pages : Nat
  total : Nat
  hasNext : Bool
  hasPrev : Bool
  deriving DecidableEq, Repr

/-- The expression `Math.ceil(total / limit)` on whole numbers, `limit ≥ 1`. -/
def ceilDiv (total limit : Nat) : Nat := (total + limit - 1) / limit

/-- The page of a list route: of the documents `matching` the query,
`.limit(limit).skip(skip)` returns those after the first
`skip = (page - 1) * limit`, at most `limit` of them, and `countDocuments` gives
`total`; `page` and `limit` are what `parseInt` reads from the query string. -/
def paginate {α : Type} (matching : List α) (page limit : Nat) : List α × Pagination :=
  let skip := (page - 1) * limit
  let items := (matching.drop skip).take limit
  let total := matching.length
  (items,
   { current := page, pages := ceilDiv total limit, total := total,
     hasNext := decide (skip + items.length < total), hasPrev := decide (page > 1) })

/-! ## Concrete documents used to evaluate the operations -/

/-- A user with an empty balance. -/
def brokeUser : User := { _id := 1, points := 0 }

/-- A user with the starting balance of 50 points. -/
def newUser : User := { _id := 2, points := 50 }

/-- An available item of user 1 on which user 7 has one rejected request
(entry 1) followed by one pending request (entry 2). -/
def reRequestedItem : Item :=
  { _id := 10, pointValue := 20, uploadedBy := 1, status := ItemStatus.available,
    swapRequests :=
      [{ _id := 1, requester := 7, message := "", status := RequestStatus.rejected,
         createdAt := 0 },
       { _id := 2, requester := 7, message := "again", status := RequestStatus.pending,
         createdAt := 1 }] }

/-- User A of the redemption scenario: 100 points. -/
def userA : User := { _id := 1, points := 100 }

/-- User B of the redemption scenario: 50 points. -/
def userB : User := { _id := 2, points := 50 }

/-- Item X of the redemption scenario: listed by A, worth 20 points, approved. -/
def itemX : Item :=
  { _id := 10, pointValue := 20, uploadedBy := 1, status := ItemStatus.available }

/-- The store of the redemption scenario. -/
def scenarioDb : Db := { users := [userA, userB], items := [itemX] }

/-- A third user, C, with the starting balance of 50 points. -/
def userC : User := { _id := 3, points := 50 }

/-- The store of the redemption scenario with user C added. -/
def tripleDb : Db := { users := [userA, userB, userC], items := [itemX] }

/-- User A as stored after item X has been redeemed for 20 points. -/
def userAPaid : User :=
  { _id := 1, points := 120, stats := { pointsEarned := 20, swapsCompleted := 1 } }

/-- A Swap record that has reached `completed`. -/
def completedSwap : Swap :=
  { _id := 500, itemRequested := 10, requester := 2, owner := 1,
    type := SwapType.point_redemption, status := SwapStatus.completed, pointsUsed := 20,
    completedAt := some 5 }

/-- An item of user A that awaits moderation. -/
def pendingItem : Item := { _id := 11, pointValue := 20, uploadedBy := 1 }

/-- A store holding user A and the item that awaits moderation. -/
def moderationDb : Db := { users := [userA], items := [pendingItem] }

/-- Item Y, listed by user B, worth 15 points, approved. -/
def itemY : Item :=
  { _id := 20, pointValue := 15, uploadedBy := 2, status := ItemStatus.available }

/-- The store of the swap scenario, before any request. -/
def offerDb : Db := { users := [userA, userB], items := [itemX, itemY] }

/-- The store of the swap scenario after user B has asked for item X, offering
item Y: Swap record 500 and embedded request 600. -/
def requestedDb : Db := (requestSwap offerDb userB 10 none (some 20) 500 600 0).2

/-- The Swap record that the request of the swap scenario creates. -/
def offerSwap : Swap :=
  { _id := 500, itemRequested := 10, itemOffered := some 20, requester := 2, owner := 1,
    type := SwapType.direct_swap, message := some "" }

/-- Item X as stored after the request of the swap scenario. -/
def itemXRequested : Item :=
  { itemX with
    swapRequests := [{ _id := 600, requester := 2, message := "", createdAt := 0 }] }

/-- Item Y as it would be after moderation turned it down. -/
def itemYRejected : Item := { itemY with status := ItemStatus.rejected }

/-- A store in which the item of user B has been rejected by moderation. -/
def rejectedOfferDb : Db := { users := [userA, userB], items := [itemX, itemYRejected] }

/-- An administrator. -/
def adminUser : User := { _id := 9, role := Role.admin }

/-- A store with a single administrator. -/
def oneAdminDb : Db := { users := [adminUser, userB] }

/-- A request body that passes every check of the create route. -/
def coatBody : ItemBody :=
  { title := some "Coat", description := some "Warm", category := some "Outerwear",
    type := some "Coat", size := some "M", condition := some "Good",
    images := some ["a.png"], pointValue := some 20 }

/-- The body `coatBody` with a type that no category lists. -/
def spaceshipBody : ItemBody := { coatBody with type := some "Spaceship" }

/-- The body `coatBody` with values for the four keys the create route does not
read. -/
def forgedBody : ItemBody :=
  { coatBody with
    status := some ItemStatus.available, uploadedBy := some 1, views := some 1000,
    swapRequests := some [{ _id := 1, requester := 1, message := "", createdAt := 0 }] }

/-- The item that user B creates from `coatBody` under the `_id` 30. -/
def coatItem : Item :=
  { _id := 30, title := "Coat", description := "Warm", category := "Outerwear", type := "Coat",
    size := "M", condition := "Good", images := ["a.png"], pointValue := 20, uploadedBy := 2 }

/-- The scenario store after user B has created `coatItem`. -/
def coatDb : Db :=
  { users := [userA, { userB with stats := { itemsListed := 1 } }], items := [itemX, coatItem] }

/-- A store all of whose items satisfy the constraints of the data model. -/
def validDb : Db := { users := [userA, userB], items := [coatItem] }

/-! ## Points ledger: `addPoints` and `deductPoints` -/

theorem orZero_eq (v : Int) : orZero v = v := by
  unfold orZero
  split
  · next h => exact h.symm
  · rfl

/-- C1: `deductPoints(amount)` throws `Insufficient points` exactly when
`amount > points`, and a call that does not return normally leaves the document,
in particular `points` and `stats.pointsSpent`, as it was. -/
theorem deductPoints_fails_iff (u : User) (amount : Int) :
    ((u.deductPoints amount).result = Except.error "Insufficient points" ↔ amount > u.points) ∧
    ((u.deductPoints amount).result ≠ Except.ok () →
      (u.deductPoints amount).doc = u ∧
      (u.deductPoints amount).doc.points = u.points ∧
      (u.deductPoints amount).doc.stats.pointsSpent = u.stats.pointsSpent) := by
  unfold User.deductPoints
  by_cases h : u.points < amount
  · simp [h]
  · rw [if_neg h]
    exact ⟨⟨fun hc => (by cases hc), fun hc => absurd hc h⟩, fun hc => absurd rfl hc⟩

/-- C2 fails as stated: crediting the amount -1 to a user with 0 points leaves
the balance at -1. -/
theorem addPoints_negative_balance :
    0 ≤ brokeUser.points ∧ (brokeUser.addPoints (-1)).points = -1 ∧
    ¬ 0 ≤ (brokeUser.addPoints (-1)).points := by
  decide

/-- C2, amended: from a balance that is at least 0, the balance is still at least
0 after `addPoints(amount)` with `amount ≥ 0`, and after every `deductPoints(amount)`
that returns normally, whatever the amount. -/
theorem points_nonneg_preserved (u : User) (amount : Int) (h : 0 ≤ u.points) :
    (0 ≤ amount → 0 ≤ (u.addPoints amount).points) ∧
    ((u.deductPoints amount).result = Except.ok () →
      0 ≤ (u.deductPoints amount).doc.points) := by
  constructor
  · intro ha
    show 0 ≤ u.points + amount
    omega
  · unfold User.deductPoints
    by_cases hlt : u.points < amount
    · simp [hlt]
    · rw [if_neg hlt]
      intro _
      show 0 ≤ u.points - amount
      omega

theorem points_nonneg_preserved_witness :
    0 ≤ newUser.points ∧ 0 ≤ (newUser.addPoints 20).points ∧
    0 ≤ (newUser.deductPoints 20).doc.points :=
  ⟨by decide,
   (points_nonneg_preserved newUser 20 (by decide)).1 (by decide),
   (points_nonneg_preserved newUser 20 (by decide)).2 rfl⟩

/-- C3: for `amount ≤ points`, `deductPoints(amount)` returns normally, sets
`points` to `points - amount` and `stats.pointsSpent` to `pointsSpent + amount`,
and leaves the other three counters of `stats` (and the rest of the document)
as they were. -/
theorem deductPoints_effect (u : User) (amount : Int) (h : amount ≤ u.points) :
    (u.deductPoints amount).result = Except.ok () ∧
    (u.deductPoints amount).doc.points = u.points - amount ∧
    (u.deductPoints amount).doc.stats.pointsSpent = u.stats.pointsSpent + amount ∧
    (u.deductPoints amount).doc.stats.pointsEarned = u.stats.pointsEarned ∧
    (u.deductPoints amount).doc.stats.itemsListed = u.stats.itemsListed ∧
    (u.deductPoints amount).doc.stats.swapsCompleted = u.stats.swapsCompleted ∧
    (u.deductPoints amount).doc._id = u._id ∧
    (u.deductPoints amount).doc.role = u.role := by
  have hlt : ¬ u.points < amount := by omega
  unfold User.deductPoints
  rw [if_neg hlt]
  exact ⟨rfl, rfl, rfl, rfl, rfl, rfl, rfl, rfl⟩

theorem deductPoints_effect_witness :
    (newUser.deductPoints 20).doc.points = 30 ∧
    (newUser.deductPoints 20).doc.stats.pointsSpent = 20 := by
  have h := deductPoints_effect newUser 20 (by decide)
  exact ⟨h.2.1, h.2.2.1⟩

/-- C4 fails as stated: `addPoints(-1)` lowers `stats.pointsEarned` from 0 to -1,
and `deductPoints(-1)`, which does not throw, lowers `stats.pointsSpent` from 0
to -1. -/
theorem counters_decrease_on_negative_amount :
    (brokeUser.addPoints (-1)).stats.pointsEarned < brokeUser.stats.pointsEarned ∧
    (brokeUser.deductPoints (-1)).result = Except.ok () ∧
    (brokeUser.deductPoints (-1)).doc.stats.pointsSpent < brokeUser.stats.pointsSpent := by
  refine ⟨by decide, rfl, by decide⟩

/-- C4, amended: for every amount that is at least 0, `stats.pointsEarned` and
`stats.pointsSpent` after `addPoints(amount)` and after `deductPoints(amount)`
(whether it throws or not) are at least what they were before. -/
theorem counters_monotone (u : User) (amount : Int) (h : 0 ≤ amount) :
    u.stats.pointsEarned ≤ (u.addPoints amount).stats.pointsEarned ∧
    u.stats.pointsSpent ≤ (u.addPoints amount).stats.pointsSpent ∧
    u.stats.pointsEarned ≤ (u.deductPoints amount).doc.stats.pointsEarned ∧
    u.stats.pointsSpent ≤ (u.deductPoints amount).doc.stats.pointsSpent := by
  refine ⟨?_, le_refl _, ?_, ?_⟩
  · show u.stats.pointsEarned ≤ u.stats.pointsEarned + amount
    omega
  · unfold User.deductPoints
    split <;> exact le_refl _
  · unfold User.deductPoints
    split
    · exact le_refl _
    · show u.stats.pointsSpent ≤ u.stats.pointsSpent + amount
      omega

theorem counters_monotone_witness :
    newUser.stats.pointsEarned ≤ (newUser.addPoints 20).stats.pointsEarned ∧
    newUser.stats.pointsSpent ≤ (newUser.deductPoints 20).doc.stats.pointsSpent :=
  ⟨(counters_monotone newUser 20 (by decide)).1,
   (counters_monotone newUser 20 (by decide)).2.2.2⟩

/-! ## Embedded swap requests: `addSwapRequest` and `updateSwapRequest` -/

theorem find_isPendingBy_eq_none (requesterId : ObjectId) (reqs : List SwapRequest) :
    reqs.find? (isPendingBy requesterId) = none ↔
      ¬ ∃ r ∈ reqs, r.requester = requesterId ∧ r.status = RequestStatus.pending := by
  rw [List.find?_eq_none]
  constructor
  · rintro h ⟨r, hr, h1, h2⟩
    exact h r hr (by simp [isPendingBy, h1, h2])
  · intro h r hr hp
    simp only [isPendingBy, Bool.and_eq_true, beq_iff_eq] at hp
    exact h ⟨r, hr, hp.1, hp.2⟩

theorem pendingCount_append (requesterId : ObjectId) (xs ys : List SwapRequest) :
    pendingCount requesterId (xs ++ ys) = pendingCount requesterId xs + pendingCount requesterId ys := by
  simp [pendingCount, List.filter_append]

theorem pendingCount_eq_zero (requesterId : ObjectId) (reqs : List SwapRequest)
    (h : reqs.find? (isPendingBy requesterId) = none) : pendingCount requesterId reqs = 0 := by
  rw [List.find?_eq_none] at h
  unfold pendingCount
  rw [List.length_eq_zero, List.filter_eq_nil_iff]
  exact h

theorem pendingCount_cons (requesterId : ObjectId) (r : SwapRequest) (rs : List SwapRequest) :
    pendingCount requesterId (r :: rs) =
      (if isPendingBy requesterId r = true then 1 else 0) + pendingCount requesterId rs := by
  unfold pendingCount
  by_cases h : isPendingBy requesterId r = true
  · simp [List.filter_cons, h, Nat.add_comm]
  · simp [List.filter_cons, h]

theorem pendingCount_setRequestStatus_le (requesterId requestId : ObjectId)
    (status : RequestStatus) (hs : status ≠ RequestStatus.pending) :
    ∀ (reqs rs1 : List SwapRequest), setRequestStatus requestId status reqs = some rs1 →
      pendingCount requesterId rs1 ≤ pendingCount requesterId reqs
  | [], rs1, h => by simp [setRequestStatus] at h
  | r :: rs, rs1, h => by
    unfold setRequestStatus at h
    by_cases hid : r._id = requestId
    · rw [if_pos hid] at h
      cases h
      rw [pendingCount_cons, pendingCount_cons]
      have hnot : isPendingBy requesterId { r with status := status } = false := by
        simp [isPendingBy, hs]
      rw [hnot]
      simp
    · rw [if_neg hid] at h
      cases hrec : setRequestStatus requestId status rs with
      | none => rw [hrec] at h; cases h
      | some rs2 =>
        rw [hrec] at h
        cases h
        have ih := pendingCount_setRequestStatus_le requesterId requestId status hs rs rs2 hrec
        rw [pendingCount_cons, pendingCount_cons]
        omega

/-- C8: `addSwapRequest` throws and leaves the item (so its `swapRequests`) as it
was when the item holds a pending entry of the requester; otherwise it returns
normally, the new `swapRequests` is the old list followed by the one entry
`{requester, message || '', status: 'pending'}`, and nothing else of the item,
in particular its `status`, changes. -/
theorem addSwapRequest_spec (item : Item) (requesterId : ObjectId) (message : Option String)
    (subId : ObjectId) (now : Nat) :
    ((∃ r ∈ item.swapRequests, r.requester = requesterId ∧ r.status = RequestStatus.pending) →
      (item.addSwapRequest requesterId message subId now).result =
        Except.error "You already have a pending swap request for this item" ∧
      (item.addSwapRequest requesterId message subId now).doc = item) ∧
    ((¬ ∃ r ∈ item.swapRequests, r.requester = requesterId ∧ r.status = RequestStatus.pending) →
      (item.addSwapRequest requesterId message subId now).result = Except.ok () ∧
      (item.addSwapRequest requesterId message subId now).doc.swapRequests =
        item.swapRequests ++
          [{ _id := subId, requester := requesterId, message := message.getD "",
             status := RequestStatus.pending, createdAt := now }] ∧
      (item.addSwapRequest requesterId message subId now).doc.status = item.status ∧
      (item.addSwapRequest requesterId message subId now).doc =
        { item with swapRequests := (item.addSwapRequest requesterId message subId now).doc.swapRequests }) := by
  constructor
  · intro h
    cases hf : item.swapRequests.find? (isPendingBy requesterId) with
    | none => exact absurd h ((find_isPendingBy_eq_none requesterId item.swapRequests).1 hf)
    | some r => simp [Item.addSwapRequest, hf]
  · intro h
    have hf := (find_isPendingBy_eq_none requesterId item.swapRequests).2 h
    simp [Item.addSwapRequest, hf]

/-- C9 fails as stated: on an item holding a rejected and then a pending request
of requester 7 (which satisfies the invariant), `updateSwapRequest(1, 'pending')`
returns normally and leaves two pending requests of requester 7. -/
theorem updateSwapRequest_breaks_onePending :
    reRequestedItem.onePendingPerRequester ∧
    (reRequestedItem.updateSwapRequest 1 RequestStatus.pending).result = Except.ok () ∧
    pendingCount 7 (reRequestedItem.updateSwapRequest 1 RequestStatus.pending).doc.swapRequests = 2 ∧
    ¬ (reRequestedItem.updateSwapRequest 1 RequestStatus.pending).doc.onePendingPerRequester := by
  refine ⟨?_, rfl, by decide, ?_⟩
  · intro r
    by_cases h : r = 7
    · subst h
      decide
    · have h7 : ¬ (7 = r) := fun e => h e.symm
      simp [pendingCount, reRequestedItem, isPendingBy, h7]
  · intro h
    exact absurd (h 7) (by decide)

/-- C9, amended: if an item has at most one pending embedded request per
requester, it still has after any `addSwapRequest(requesterId, message)` and
after any `updateSwapRequest(requestId, status)` whose `status` is not
`'pending'` (that is `'accepted'` or `'rejected'`). -/
theorem onePending_preserved (item : Item) (h : item.onePendingPerRequester) :
    (∀ (requesterId : ObjectId) (message : Option String) (subId : ObjectId) (now : Nat),
      (item.addSwapRequest requesterId message subId now).doc.onePendingPerRequester) ∧
    (∀ (requestId : ObjectId) (status : RequestStatus), status ≠ RequestStatus.pending →
      (item.updateSwapRequest requestId status).doc.onePendingPerRequester) := by
  constructor
  · intro requesterId message subId now r
    unfold Item.addSwapRequest
    cases hf : item.swapRequests.find? (isPendingBy requesterId) with
    | some _ => exact h r
    | none =>
      show pendingCount r (item.swapRequests ++ _) ≤ 1
      rw [pendingCount_append, pendingCount_cons]
      by_cases hr : r = requesterId
      · subst hr
        rw [pendingCount_eq_zero r item.swapRequests hf]
        simp only [pendingCount, List.filter_nil, List.length_nil]
        split <;> omega
      · have hnot : isPendingBy r
            { _id := subId, requester := requesterId, message := message.getD "",
              status := RequestStatus.pending, createdAt := now } = false := by
          have : ¬ requesterId = r := fun e => hr e.symm
          simp [isPendingBy, this]
        rw [hnot]
        have := h r
        simp [pendingCount] at this ⊢
        exact this
  · intro requestId status hs r
    unfold Item.updateSwapRequest
    cases hu : setRequestStatus requestId status item.swapRequests with
    | none => exact h r
    | some rs =>
      have := pendingCount_setRequestStatus_le r requestId status hs item.swapRequests rs hu
      exact le_trans this (h r)

theorem onePending_preserved_witness :
    reRequestedItem.onePendingPerRequester ∧
    (reRequestedItem.addSwapRequest 8 none 3 2).doc.onePendingPerRequester ∧
    (reRequestedItem.updateSwapRequest 2 RequestStatus.accepted).doc.onePendingPerRequester :=
  have h0 : reRequestedItem.onePendingPerRequester := by
    intro r
    by_cases h : r = 7
    · subst h
      decide
    · have h7 : ¬ (7 = r) := fun e => h e.symm
      simp [pendingCount, reRequestedItem, isPendingBy, h7]
  ⟨h0, (onePending_preserved reRequestedItem h0).1 8 none 3 2,
   (onePending_preserved reRequestedItem h0).2 2 RequestStatus.accepted (by decide)⟩

/-! ## The store: lookups after writes -/

theorem find_map_replace_user (u : User) (i : ObjectId) :
    ∀ us : List User,
      (us.map (fun x => if x._id == u._id then u else x)).find? (fun x => x._id == i) =
        if i = u._id then (us.find? (fun x => x._id == i)).map (fun _ => u)
        else us.find? (fun x => x._id == i)
  | [] => by simp
  | x :: xs => by
    have ih := find_map_replace_user u i xs
    by_cases hx : x._id = u._id
    · by_cases hi : i = u._id
      · simp [List.find?_cons, hx, hi]
      · have hne : ¬ u._id = i := fun e => hi e.symm
        simp [List.find?_cons, hx, hi, hne] at ih ⊢
        exact ih
    · by_cases hxi : x._id = i
      · have hi : ¬ i = u._id := fun e => hx (hxi.trans e)
        simp [List.find?_cons, hx, hxi, hi]
      · simp [List.find?_cons, hx, hxi] at ih ⊢
        exact ih

theorem find_map_replace_item (it : Item) (i : ObjectId) :
    ∀ xs : List Item,
      (xs.map (fun x => if x._id == it._id then it else x)).find? (fun x => x._id == i) =
        if i = it._id then (xs.find? (fun x => x._id == i)).map (fun _ => it)
        else xs.find? (fun x => x._id == i)
  | [] => by simp
  | x :: xs => by
    have ih := find_map_replace_item it i xs
    by_cases hx : x._id = it._id
    · by_cases hi : i = it._id
      · simp [List.find?_cons, hx, hi]
      · have hne : ¬ it._id = i := fun e => hi e.symm
        simp [List.find?_cons, hx, hi, hne] at ih ⊢
        exact ih
    · by_cases hxi : x._id = i
      · have hi : ¬ i = it._id := fun e => hx (hxi.trans e)
        simp [List.find?_cons, hx, hxi, hi]
      · simp [List.find?_cons, hx, hxi] at ih ⊢
        exact ih

theorem findUser_saveUser (db : Db) (u : User) (i : ObjectId) :
    (db.saveUser u).findUser i =
      if i = u._id then (db.findUser i).map (fun _ => u) else db.findUser i :=
  find_map_replace_user u i db.users

theorem findItem_saveItem (db : Db) (it : Item) (i : ObjectId) :
    (db.saveItem it).findItem i =
      if i = it._id then (db.findItem i).map (fun _ => it) else db.findItem i :=
  find_map_replace_item it i db.items

theorem findUser_id (db : Db) (i : ObjectId) (u : User) (h : db.findUser i = some u) :
    u._id = i := by
  have := List.find?_some h
  simpa using this

theorem findItem_id (db : Db) (i : ObjectId) (it : Item) (h : db.findItem i = some it) :
    it._id = i := by
  have := List.find?_some h
  simpa using this

@[simp]
theorem findItem_saveUser (db : Db) (u : User) (i : ObjectId) :
    (db.saveUser u).findItem i = db.findItem i := rfl

@[simp]
theorem findUser_saveItem (db : Db) (it : Item) (i : ObjectId) :
    (db.saveItem it).findUser i = db.findUser i := rfl

@[simp]
theorem findUser_createSwap (db : Db) (s : Swap) (i : ObjectId) :
    (db.createSwap s).findUser i = db.findUser i := rfl

@[simp]
theorem findItem_createSwap (db : Db) (s : Swap) (i : ObjectId) :
    (db.createSwap s).findItem i = db.findItem i := rfl

@[simp]
theorem swaps_saveUser (db : Db) (u : User) : (db.saveUser u).swaps = db.swaps := rfl

@[simp]
theorem swaps_saveItem (db : Db) (it : Item) : (db.saveItem it).swaps = db.swaps := rfl

@[simp]
theorem swaps_createSwap (db : Db) (s : Swap) :
    (db.createSwap s).swaps = db.swaps ++ [s] := rfl

/-! ## Point redemption -/

theorem redeemCatch_status (msg : String) : (redeemCatch msg).status ≠ 200 := by
  unfold redeemCatch
  split <;> simp

theorem redeem_eq_of_pre (db : Db) (reqUser itemOwner : User) (item : Item)
    (itemId swapId : ObjectId)
    (hitem : db.findItem itemId = some item)
    (havail : item.status = ItemStatus.available)
    (hne : item.uploadedBy ≠ reqUser._id)
    (hpts : item.pointValue ≤ reqUser.points)
    (hown : db.findUser item.uploadedBy = some itemOwner) :
    redeem db reqUser itemId swapId =
      ({ status := 200, message := "Item redeemed successfully",
         swap := some
           { _id := swapId, itemRequested := item._id, requester := reqUser._id,
             owner := item.uploadedBy, type := SwapType.point_redemption,
             pointsUsed := item.pointValue, status := SwapStatus.completed },
         pointsRemaining := some (reqUser.points - item.pointValue - item.pointValue) },
       (((((db.saveUser (reqUser.deductPoints item.pointValue).doc).saveUser
          (itemOwner.addPoints item.pointValue)).createSwap
            { _id := swapId, itemRequested := item._id, requester := reqUser._id,
              owner := item.uploadedBy, type := SwapType.point_redemption,
              pointsUsed := item.pointValue, status := SwapStatus.completed }).saveItem
            { item with status := ItemStatus.swapped }).saveUser
          ((reqUser.deductPoints item.pointValue).doc.updateStats StatField.swapsCompleted)).saveUser
          ((itemOwner.addPoints item.pointValue).updateStats StatField.swapsCompleted)) := by
  have hlt : ¬ reqUser.points < item.pointValue := by omega
  have hded : reqUser.deductPoints item.pointValue =
      { result := Except.ok (),
        doc := { reqUser with
          points := reqUser.points - item.pointValue
          stats := { reqUser.stats with
            pointsSpent := reqUser.stats.pointsSpent + item.pointValue } } } := by
    unfold User.deductPoints
    rw [if_neg hlt]
  have hown1 : (db.saveUser (reqUser.deductPoints item.pointValue).doc).findUser item.uploadedBy =
      some itemOwner := by
    rw [findUser_saveUser, hded, if_neg hne, hown]
  unfold redeem
  rw [hitem]
  simp only [havail, ne_eq, not_true_eq_false, if_false, if_neg hne, if_neg hlt]
  rw [hown1]
  simp only [hded]
  rfl

theorem redeem_store_after (db : Db) (reqUser itemOwner : User) (item : Item)
    (itemId swapId : ObjectId)
    (hitem : db.findItem itemId = some item)
    (havail : item.status = ItemStatus.available)
    (hB : db.findUser reqUser._id = some reqUser)
    (hA : db.findUser item.uploadedBy = some itemOwner)
    (hne : item.uploadedBy ≠ reqUser._id)
    (hpts : item.pointValue ≤ reqUser.points) :
    (redeem db reqUser itemId swapId).1.status = 200 ∧
    (redeem db reqUser itemId swapId).2.findUser reqUser._id =
      some { reqUser with
        points := reqUser.points - item.pointValue
        stats := { reqUser.stats with
          pointsSpent := reqUser.stats.pointsSpent + item.pointValue
          swapsCompleted := reqUser.stats.swapsCompleted + 1 } } ∧
    (redeem db reqUser itemId swapId).2.findUser item.uploadedBy =
      some { itemOwner with
        points := itemOwner.points + item.pointValue
        stats := { itemOwner.stats with
          pointsEarned := itemOwner.stats.pointsEarned + item.pointValue
          swapsCompleted := itemOwner.stats.swapsCompleted + 1 } } ∧
    (redeem db reqUser itemId swapId).2.findItem itemId =
      some { item with status := ItemStatus.swapped } ∧
    (redeem db reqUser itemId swapId).2.swaps = db.swaps ++
      [{ _id := swapId, itemRequested := item._id, requester := reqUser._id,
         owner := item.uploadedBy, type := SwapType.point_redemption,
         status := SwapStatus.completed, pointsUsed := item.pointValue }] := by
  have hlt : ¬ reqUser.points < item.pointValue := by omega
  have hne2 : ¬ reqUser._id = item.uploadedBy := fun e => hne e.symm
  have hAid : itemOwner._id = item.uploadedBy := findUser_id db _ _ hA
  have hIid : item._id = itemId := findItem_id db _ _ hitem
  rw [redeem_eq_of_pre db reqUser itemOwner item itemId swapId hitem havail hne hpts hA]
  refine ⟨rfl, ?_, ?_, ?_, rfl⟩
  · simp [findUser_saveUser, User.updateStats, User.addPoints, User.deductPoints, hlt, hAid,
      hne2, hB, Stats.set, Stats.get, orZero_eq]
  · simp [findUser_saveUser, User.updateStats, User.addPoints, User.deductPoints, hlt, hAid,
      hne, hA, Stats.set, Stats.get, orZero_eq]
  · simp [findItem_saveItem, hIid, hitem]

/-- C5: when the item is available, worth `v` points, owned by A (whose record
is `itemOwner`), and the requester B is not A and has at least `v` points, the
redemption succeeds (status 200) and leaves B with `points - v`,
`pointsSpent + v` and `swapsCompleted + 1`, A with `points + v`,
`pointsEarned + v` and `swapsCompleted + 1`, the item with status `swapped`, and
the Swap collection extended by exactly one record, of type `point_redemption`,
status `completed`, `pointsUsed = v`, requester B and owner A. -/
theorem redeem_effects (db : Db) (reqUser itemOwner : User) (item : Item)
    (itemId swapId : ObjectId)
    (hitem : db.findItem itemId = some item)
    (havail : item.status = ItemStatus.available)
    (hB : db.findUser reqUser._id = some reqUser)
    (hA : db.findUser item.uploadedBy = some itemOwner)
    (hne : item.uploadedBy ≠ reqUser._id)
    (hpts : item.pointValue ≤ reqUser.points) :
    (redeem db reqUser itemId swapId).1.status = 200 ∧
    (redeem db reqUser itemId swapId).2.findUser reqUser._id =
      some { reqUser with
        points := reqUser.points - item.pointValue
        stats := { reqUser.stats with
          pointsSpent := reqUser.stats.pointsSpent + item.pointValue
          swapsCompleted := reqUser.stats.swapsCompleted + 1 } } ∧
    (redeem db reqUser itemId swapId).2.findUser item.uploadedBy =
      some { itemOwner with
        points := itemOwner.points + item.pointValue
        stats := { itemOwner.stats with
          pointsEarned := itemOwner.stats.pointsEarned + item.pointValue
          swapsCompleted := itemOwner.stats.swapsCompleted + 1 } } ∧
    (redeem db reqUser itemId swapId).2.findItem itemId =
      some { item with status := ItemStatus.swapped } ∧
    (redeem db reqUser itemId swapId).2.swaps = db.swaps ++
      [{ _id := swapId, itemRequested := item._id, requester := reqUser._id,
         owner := item.uploadedBy, type := SwapType.point_redemption,
         status := SwapStatus.completed, pointsUsed := item.pointValue }] := by
  have hlt : ¬ reqUser.points < item.pointValue := by omega
  have hne2 : ¬ reqUser._id = item.uploadedBy := fun e => hne e.symm
  have hAid : itemOwner._id = item.uploadedBy := findUser_id db _ _ hA
  have hIid : item._id = itemId := findItem_id db _ _ hitem
  rw [redeem_eq_of_pre db reqUser itemOwner item itemId swapId hitem havail hne hpts hA]
  refine ⟨rfl, ?_, ?_, ?_, rfl⟩
  · simp [findUser_saveUser, User.updateStats, User.addPoints, User.deductPoints, hlt, hAid,
      hne2, hB, Stats.set, Stats.get, orZero_eq]
  · simp [findUser_saveUser, User.updateStats, User.addPoints, User.deductPoints, hlt, hAid,
      hne, hA, Stats.set, Stats.get, orZero_eq]
  · simp [findItem_saveItem, hIid, hitem]

theorem redeem_effects_witness :
    (redeem scenarioDb userB 10 500).1.status = 200 ∧
    (redeem scenarioDb userB 10 500).2.findUser 2 =
      some { _id := 2, points := 30, stats := { pointsSpent := 20, swapsCompleted := 1 } } ∧
    (redeem scenarioDb userB 10 500).2.findUser 1 =
      some { _id := 1, points := 120, stats := { pointsEarned := 20, swapsCompleted := 1 } } ∧
    (redeem scenarioDb userB 10 500).2.findItem 10 =
      some { itemX with status := ItemStatus.swapped } ∧
    (redeem scenarioDb userB 10 500).2.swaps =
      [{ _id := 500, itemRequested := 10, requester := 2, owner := 1,
         type := SwapType.point_redemption, status := SwapStatus.completed,
         pointsUsed := 20 }] :=
  redeem_effects scenarioDb userB userA itemX 10 500 rfl rfl rfl rfl (by decide) (by decide)

theorem redeem_pre_of_success (db : Db) (reqUser : User) (itemId swapId : ObjectId)
    (h : (redeem db reqUser itemId swapId).1.status = 200) :
    ∃ item itemOwner, db.findItem itemId = some item ∧
      item.status = ItemStatus.available ∧ item.uploadedBy ≠ reqUser._id ∧
      item.pointValue ≤ reqUser.points ∧ db.findUser item.uploadedBy = some itemOwner := by
  unfold redeem at h
  cases hitem : db.findItem itemId with
  | none => rw [hitem] at h; simp at h
  | some item =>
    rw [hitem] at h
    by_cases hs : item.status = ItemStatus.available
    · by_cases ho : item.uploadedBy = reqUser._id
      · simp [hs, ho] at h
      · by_cases hlt : reqUser.points < item.pointValue
        · simp [hs, ho, hlt] at h
        · have hded : reqUser.deductPoints item.pointValue =
              { result := Except.ok (),
                doc := { reqUser with
                  points := reqUser.points - item.pointValue
                  stats := { reqUser.stats with
                    pointsSpent := reqUser.stats.pointsSpent + item.pointValue } } } := by
            unfold User.deductPoints
            rw [if_neg hlt]
          cases hown : db.findUser item.uploadedBy with
          | none =>
            have hown1 : (db.saveUser (reqUser.deductPoints item.pointValue).doc).findUser
                item.uploadedBy = none := by
              rw [findUser_saveUser, hded, if_neg ho, hown]
            simp only [hs, ne_eq, not_true_eq_false, if_false, if_neg ho, if_neg hlt] at h
            rw [hown1] at h
            simp only [hded] at h
            exact absurd h (redeemCatch_status _)
          | some itemOwner =>
            exact ⟨item, itemOwner, rfl, hs, ho, by omega, hown⟩
    · simp [hs] at h

/-- The refusals of the redemption route: an unavailable item, the owner as
requester, and a balance below the point value each give a 400 response and
leave the whole store as it was; the last one reports `required` and
`available`. With the item and the record of its owner present, every other
call succeeds. -/
theorem redeem_refusals (db : Db) (reqUser : User) (item : Item) (itemId swapId : ObjectId)
    (hitem : db.findItem itemId = some item) :
    (item.status ≠ ItemStatus.available →
      redeem db reqUser itemId swapId =
        ({ status := 400, message := "Item is not available for redemption" }, db)) ∧
    (item.status = ItemStatus.available → item.uploadedBy = reqUser._id →
      redeem db reqUser itemId swapId =
        ({ status := 400, message := "Cannot redeem your own item" }, db)) ∧
    (item.status = ItemStatus.available → item.uploadedBy ≠ reqUser._id →
      reqUser.points < item.pointValue →
      redeem db reqUser itemId swapId =
        ({ status := 400, message := "Insufficient points",
           required := some item.pointValue, available := some reqUser.points }, db)) ∧
    (item.status = ItemStatus.available → item.uploadedBy ≠ reqUser._id →
      item.pointValue ≤ reqUser.points → (db.findUser item.uploadedBy).isSome = true →
      (redeem db reqUser itemId swapId).1.status = 200) := by
  refine ⟨?_, ?_, ?_, ?_⟩
  · intro hs
    unfold redeem
    rw [hitem]
    simp [hs]
  · intro hs ho
    unfold redeem
    rw [hitem]
    simp [hs, ho]
  · intro hs ho hlt
    unfold redeem
    rw [hitem]
    simp [hs, ho, hlt]
  · intro hs ho hpts hown
    cases hA : db.findUser item.uploadedBy with
    | none => rw [hA] at hown; cases hown
    | some itemOwner =>
      rw [redeem_eq_of_pre db reqUser itemOwner item itemId swapId hitem hs ho hpts hA]

/-- C6: on an existing item whose owner is on record, the redemption fails with
a 400 response and leaves the whole store (balances, items, Swap records) as it
was when the item is not available, when the requester is the owner of the item,
and when the requester has fewer points than the point value, in which case the
response reports `required = pointValue` and `available = points`; in every
other case it succeeds. -/
theorem redeem_spec (db : Db) (reqUser itemOwner : User) (item : Item)
    (itemId swapId : ObjectId)
    (hitem : db.findItem itemId = some item)
    (hown : db.findUser item.uploadedBy = some itemOwner) :
    (item.status ≠ ItemStatus.available →
      (redeem db reqUser itemId swapId).1.status = 400 ∧
      (redeem db reqUser itemId swapId).2 = db) ∧
    (item.uploadedBy = reqUser._id →
      (redeem db reqUser itemId swapId).1.status = 400 ∧
      (redeem db reqUser itemId swapId).2 = db) ∧
    (reqUser.points < item.pointValue →
      (redeem db reqUser itemId swapId).1.status = 400 ∧
      (redeem db reqUser itemId swapId).2 = db) ∧
    (item.status = ItemStatus.available → item.uploadedBy ≠ reqUser._id →
      reqUser.points < item.pointValue →
      (redeem db reqUser itemId swapId).1 =
        { status := 400, message := "Insufficient points",
          required := some item.pointValue, available := some reqUser.points }) ∧
    (item.status = ItemStatus.available → item.uploadedBy ≠ reqUser._id →
      item.pointValue ≤ reqUser.points →
      (redeem db reqUser itemId swapId).1.status = 200) := by
  have hr := redeem_refusals db reqUser item itemId swapId hitem
  have hunavail : item.status ≠ ItemStatus.available →
      (redeem db reqUser itemId swapId).1.status = 400 ∧
      (redeem db reqUser itemId swapId).2 = db := by
    intro hs
    rw [hr.1 hs]
    exact ⟨rfl, rfl⟩
  have hself : item.uploadedBy = reqUser._id →
      (redeem db reqUser itemId swapId).1.status = 400 ∧
      (redeem db reqUser itemId swapId).2 = db := by
    intro ho
    by_cases hs : item.status = ItemStatus.available
    · rw [hr.2.1 hs ho]
      exact ⟨rfl, rfl⟩
    · exact hunavail hs
  refine ⟨hunavail, hself, ?_, ?_, ?_⟩
  · intro hlt
    by_cases hs : item.status = ItemStatus.available
    · by_cases ho : item.uploadedBy = reqUser._id
      · exact hself ho
      · rw [hr.2.2.1 hs ho hlt]
        exact ⟨rfl, rfl⟩
    · exact hunavail hs
  · intro hs ho hlt
    rw [hr.2.2.1 hs ho hlt]
  · intro hs ho hpts
    rw [redeem_eq_of_pre db reqUser itemOwner item itemId swapId hitem hs ho hpts hown]

theorem redeem_spec_witness :
    (redeem scenarioDb userB 10 500).1.status = 200 ∧
    (redeem scenarioDb userA 10 500).1.status = 400 ∧
    (redeem scenarioDb userA 10 500).2 = scenarioDb ∧
    (redeem scenarioDb brokeUser 10 500).1.status = 400 :=
  ⟨(redeem_spec scenarioDb userB userA itemX 10 500 rfl rfl).2.2.2.2 rfl (by decide)
      (by decide),
   ((redeem_spec scenarioDb userA userA itemX 10 500 rfl rfl).2.1 rfl).1,
   ((redeem_spec scenarioDb userA userA itemX 10 500 rfl rfl).2.1 rfl).2,
   ((redeem_spec scenarioDb brokeUser userA itemX 10 500 rfl rfl).2.2.1 (by decide)).1⟩

/-- C7: if a redemption of an item succeeds, a redemption of the same item made
right after it, by the same or by any other requester, is refused because the
item is not available and changes nothing; after both calls the requester of the
first call has paid the point value once, the owner has received it once, every
other balance is what it was, and one Swap record has been added. -/
theorem redeem_twice (db : Db) (reqUser1 reqUser2 : User) (itemId swapId1 swapId2 : ObjectId)
    (hfresh : db.findUser reqUser1._id = some reqUser1)
    (hfirst : (redeem db reqUser1 itemId swapId1).1.status = 200) :
    redeem (redeem db reqUser1 itemId swapId1).2 reqUser2 itemId swapId2 =
      ({ status := 400, message := "Item is not available for redemption" },
       (redeem db reqUser1 itemId swapId1).2) ∧
    ∃ item, db.findItem itemId = some item ∧
      (∀ i : ObjectId,
        ((redeem (redeem db reqUser1 itemId swapId1).2 reqUser2 itemId swapId2).2.findUser i).map
            User.points =
          if i = reqUser1._id then (db.findUser i).map (fun u => u.points - item.pointValue)
          else if i = item.uploadedBy then
            (db.findUser i).map (fun u => u.points + item.pointValue)
          else (db.findUser i).map User.points) ∧
      (redeem (redeem db reqUser1 itemId swapId1).2 reqUser2 itemId swapId2).2.swaps.length =
        db.swaps.length + 1 := by
  obtain ⟨item, itemOwner, hitem, havail, hne, hpts, hA⟩ :=
    redeem_pre_of_success db reqUser1 itemId swapId1 hfirst
  have heff := redeem_store_after db reqUser1 itemOwner item itemId swapId1 hitem havail hfresh hA
    hne hpts
  have hsecond : redeem (redeem db reqUser1 itemId swapId1).2 reqUser2 itemId swapId2 =
      ({ status := 400, message := "Item is not available for redemption" },
       (redeem db reqUser1 itemId swapId1).2) :=
    (redeem_refusals _ reqUser2 { item with status := ItemStatus.swapped } itemId swapId2
      heff.2.2.2.1).1 (by simp)
  refine ⟨hsecond, item, hitem, ?_, ?_⟩
  · intro i
    rw [hsecond]
    by_cases hi : i = reqUser1._id
    · subst hi
      rw [if_pos rfl, heff.2.1, hfresh]
      rfl
    · by_cases hi2 : i = item.uploadedBy
      · subst hi2
        rw [if_neg hi, if_pos rfl, heff.2.2.1, hA]
        rfl
      · rw [if_neg hi, if_neg hi2]
        have hAid : itemOwner._id = item.uploadedBy := findUser_id db _ _ hA
        have hlt : ¬ reqUser1.points < item.pointValue := by omega
        rw [redeem_eq_of_pre db reqUser1 itemOwner item itemId swapId1 hitem havail hne hpts hA]
        simp [findUser_saveUser, User.updateStats, User.addPoints, User.deductPoints, hlt, hAid,
          hi, hi2]
  · rw [hsecond, heff.2.2.2.2]
    simp

theorem redeem_twice_witness :
    redeem (redeem scenarioDb userB 10 500).2 userB 10 501 =
      ({ status := 400, message := "Item is not available for redemption" },
       (redeem scenarioDb userB 10 500).2) ∧
    ∃ item, scenarioDb.findItem 10 = some item ∧
      (∀ i : ObjectId,
        ((redeem (redeem scenarioDb userB 10 500).2 userB 10 501).2.findUser i).map User.points =
          if i = userB._id then (scenarioDb.findUser i).map (fun u => u.points - item.pointValue)
          else if i = item.uploadedBy then
            (scenarioDb.findUser i).map (fun u => u.points + item.pointValue)
          else (scenarioDb.findUser i).map User.points) ∧
      (redeem (redeem scenarioDb userB 10 500).2 userB 10 501).2.swaps.length =
        scenarioDb.swaps.length + 1 :=
  redeem_twice scenarioDb userB userB 10 500 501 rfl rfl

/-! ## Swap requests -/

theorem swapCatch_status (msg : String) : (swapCatch msg).status ≠ 201 := by
  unfold swapCatch
  split <;> simp

/-- C10: on an existing item, the swap-request route answers 400 and leaves the
whole store as it was (no Swap record, no embedded request) when the item is not
available, when the requester is the owner of the item, or when an
`offeredItemId` is given that does not resolve to an item uploaded by the
requester; and when it succeeds (201) exactly one Swap record has been added,
which is the one returned, of type `direct_swap`, status `pending`, with the
caller as requester and the item's `uploadedBy` as owner. -/
theorem requestSwap_spec (db : Db) (reqUser : User) (item : Item) (itemId : ObjectId)
    (message : Option String) (offeredItemId : Option ObjectId) (swapId subId : ObjectId)
    (now : Nat) (hitem : db.findItem itemId = some item) :
    ((item.status ≠ ItemStatus.available ∨ item.uploadedBy = reqUser._id ∨
        (∃ oid, offeredItemId = some oid ∧
          ¬ ∃ offered, db.findItem oid = some offered ∧ offered.uploadedBy = reqUser._id)) →
      (requestSwap db reqUser itemId message offeredItemId swapId subId now).1.status = 400 ∧
      (requestSwap db reqUser itemId message offeredItemId swapId subId now).2 = db) ∧
    ((requestSwap db reqUser itemId message offeredItemId swapId subId now).1.status = 201 →
      ∃ swap : Swap,
        (requestSwap db reqUser itemId message offeredItemId swapId subId now).2.swaps =
          db.swaps ++ [swap] ∧
        (requestSwap db reqUser itemId message offeredItemId swapId subId now).1.swap =
          some swap ∧
        swap.type = SwapType.direct_swap ∧ swap.status = SwapStatus.pending ∧
        swap.requester = reqUser._id ∧ swap.owner = item.uploadedBy ∧
        swap.itemRequested = itemId ∧ swap.itemOffered = offeredItemId) := by
  have hIid : item._id = itemId := findItem_id db _ _ hitem
  constructor
  · intro h
    unfold requestSwap
    rw [hitem]
    by_cases hs : item.status = ItemStatus.available
    · by_cases ho : item.uploadedBy = reqUser._id
      · simp [hs, ho]
      · rcases h with h | h | ⟨oid, hoid, hbad⟩
        · exact absurd hs h
        · exact absurd h ho
        · subst hoid
          cases hoff : db.findItem oid with
          | none => simp [hs, ho, hoff]
          | some offered =>
            have hno : ¬ offered.uploadedBy = reqUser._id := fun e => hbad ⟨offered, hoff, e⟩
            simp [hs, ho, hoff, hno]
    · simp [hs]
  · intro h
    unfold requestSwap at h ⊢
    rw [hitem] at h ⊢
    by_cases hs : item.status = ItemStatus.available
    · by_cases ho : item.uploadedBy = reqUser._id
      · simp [hs, ho] at h
      · simp only [hs, ne_eq, not_true_eq_false, if_false, if_neg ho] at h ⊢
        split at h
        · simp at h
        · split at h
          · exact absurd h (swapCatch_status _)
          · rename_i hok hlen
            rw [if_neg hok, if_neg hlen]
            cases hc : (item.addSwapRequest reqUser._id message subId now).result with
            | error msg =>
              rw [hc] at h
              exact absurd h (swapCatch_status _)
            | ok v =>
              exact ⟨_, rfl, rfl, rfl, rfl, rfl, rfl, hIid, rfl⟩
    · simp [hs] at h

theorem requestSwap_spec_witness :
    (requestSwap scenarioDb userB 10 none none 500 600 0).1.status = 201 ∧
    ∃ swap : Swap,
      (requestSwap scenarioDb userB 10 none none 500 600 0).2.swaps =
        scenarioDb.swaps ++ [swap] ∧
      (requestSwap scenarioDb userB 10 none none 500 600 0).1.swap = some swap ∧
      swap.type = SwapType.direct_swap ∧ swap.status = SwapStatus.pending ∧
      swap.requester = userB._id ∧ swap.owner = itemX.uploadedBy ∧
      swap.itemRequested = 10 ∧ swap.itemOffered = none :=
  ⟨rfl, (requestSwap_spec scenarioDb userB itemX 10 none none 500 600 0 rfl).2 rfl⟩

/-- C11, the failing input: user B asks for item X twice. The second call is
answered 400 with the message of the duplicate check, the embedded list of the
item is left as the first call made it, and yet the Swap collection has grown
from one record to two: `Swap.create` runs before `addSwapRequest` throws. -/
theorem requestSwap_duplicate_leaves_swap :
    (requestSwap scenarioDb userB 10 none none 500 600 0).1.status = 201 ∧
    (requestSwap (requestSwap scenarioDb userB 10 none none 500 600 0).2 userB 10 none none
        501 601 1).1 =
      { status := 400, message := "You already have a pending swap request for this item" } ∧
    (requestSwap (requestSwap scenarioDb userB 10 none none 500 600 0).2 userB 10 none none
        501 601 1).2.items =
      (requestSwap scenarioDb userB 10 none none 500 600 0).2.items ∧
    (requestSwap scenarioDb userB 10 none none 500 600 0).2.swaps.length = 1 ∧
    ((requestSwap (requestSwap scenarioDb userB 10 none none 500 600 0).2 userB 10 none none
        501 601 1).2.swaps.map (fun s => (s._id, s.requester, s.status))) =
      [(500, 2, SwapStatus.pending), (501, 2, SwapStatus.pending)] := by
  refine ⟨rfl, rfl, rfl, rfl, rfl⟩

/-! ## The store: Swap records -/

theorem find_map_replace_swap (sw : Swap) (i : ObjectId) :
    ∀ xs : List Swap,
      (xs.map (fun x => if x._id == sw._id then sw else x)).find? (fun x => x._id == i) =
        if i = sw._id then (xs.find? (fun x => x._id == i)).map (fun _ => sw)
        else xs.find? (fun x => x._id == i)
  | [] => by simp
  | x :: xs => by
    have ih := find_map_replace_swap sw i xs
    by_cases hx : x._id = sw._id
    · by_cases hi : i = sw._id
      · simp [List.find?_cons, hx, hi]
      · have hne : ¬ sw._id = i := fun e => hi e.symm
        simp [List.find?_cons, hx, hi, hne] at ih ⊢
        exact ih
    · by_cases hxi : x._id = i
      · have hi : ¬ i = sw._id := fun e => hx (hxi.trans e)
        simp [List.find?_cons, hx, hxi, hi]
      · simp [List.find?_cons, hx, hxi] at ih ⊢
        exact ih

theorem findSwap_saveSwap (db : Db) (sw : Swap) (i : ObjectId) :
    (db.saveSwap sw).findSwap i =
      if i = sw._id then (db.findSwap i).map (fun _ => sw) else db.findSwap i :=
  find_map_replace_swap sw i db.swaps

theorem findSwap_id (db : Db) (i : ObjectId) (sw : Swap) (h : db.findSwap i = some sw) :
    sw._id = i := by
  have := List.find?_some h
  simpa using this

theorem findSwap_of_swaps_eq (db1 db2 : Db) (h : db1.swaps = db2.swaps) (i : ObjectId) :
    db1.findSwap i = db2.findSwap i := by
  unfold Db.findSwap
  rw [h]

@[simp]
theorem findUser_saveSwap (db : Db) (sw : Swap) (i : ObjectId) :
    (db.saveSwap sw).findUser i = db.findUser i := rfl

@[simp]
theorem findItem_saveSwap (db : Db) (sw : Swap) (i : ObjectId) :
    (db.saveSwap sw).findItem i = db.findItem i := rfl

@[simp]
theorem findSwap_saveUser (db : Db) (u : User) (i : ObjectId) :
    (db.saveUser u).findSwap i = db.findSwap i := rfl

@[simp]
theorem findSwap_saveItem (db : Db) (it : Item) (i : ObjectId) :
    (db.saveItem it).findSwap i = db.findSwap i := rfl

@[simp]
theorem users_saveSwap (db : Db) (sw : Swap) : (db.saveSwap sw).users = db.users := rfl

@[simp]
theorem items_saveSwap (db : Db) (sw : Swap) : (db.saveSwap sw).items = db.items := rfl

@[simp]
theorem swaps_saveSwap (db : Db) (sw : Swap) :
    (db.saveSwap sw).swaps = db.swaps.map (fun x => if x._id == sw._id then sw else x) := rfl

/-! ## Answering a swap request -/

/-- C12: the respond route refuses an action other than `accept` and `reject`
(400), a caller who is not the owner of the swap (403, forbidden) and a swap
that is not pending (400), each time leaving the whole store as it was; and
whenever a call changes the store, the action was `accept` or `reject`, the
caller was the owner of the swap and the swap was pending. -/
theorem respond_refusals (db : Db) (reqUser : User) (swapId : ObjectId) (action : String)
    (now : Nat) :
    (¬ (action = "accept" ∨ action = "reject") →
      respond db reqUser swapId action now =
        ({ status := 400, message := "Invalid action. Use accept or reject" }, db)) ∧
    (∀ swap owner, (action = "accept" ∨ action = "reject") →
      db.findSwap swapId = some swap → db.findUser swap.owner = some owner →
      (swap.owner ≠ reqUser._id →
        respond db reqUser swapId action now =
          ({ status := 403, message := "Not authorized to respond to this swap request" },
           db)) ∧
      (swap.owner = reqUser._id → swap.status ≠ SwapStatus.pending →
        respond db reqUser swapId action now =
          ({ status := 400, message := "Swap request is no longer pending" }, db))) ∧
    ((respond db reqUser swapId action now).2 ≠ db →
      (action = "accept" ∨ action = "reject") ∧
      ∃ swap, db.findSwap swapId = some swap ∧ swap.owner = reqUser._id ∧
        swap.status = SwapStatus.pending) := by
  refine ⟨?_, ?_, ?_⟩
  · intro ha
    unfold respond
    rw [if_pos ha]
  · intro swap owner ha hswap hown
    have hid : owner._id = swap.owner := findUser_id db _ _ hown
    constructor
    · intro hne
      unfold respond
      rw [if_neg (not_not.mpr ha), hswap]
      simp only [hown]
      rw [if_pos (by rw [hid]; exact hne)]
    · intro heq hst
      unfold respond
      rw [if_neg (not_not.mpr ha), hswap]
      simp only [hown]
      rw [if_neg (by rw [hid]; exact not_not.mpr heq), if_pos hst]
  · intro hchg
    by_cases ha : action = "accept" ∨ action = "reject"
    · refine ⟨ha, ?_⟩
      unfold respond at hchg
      rw [if_neg (not_not.mpr ha)] at hchg
      cases hswap : db.findSwap swapId with
      | none => rw [hswap] at hchg; exact absurd rfl hchg
      | some swap =>
        rw [hswap] at hchg
        cases hown : db.findUser swap.owner with
        | none => simp only [hown] at hchg; exact absurd rfl hchg
        | some owner =>
          have hid : owner._id = swap.owner := findUser_id db _ _ hown
          simp only [hown] at hchg
          by_cases hne : owner._id ≠ reqUser._id
          · rw [if_pos hne] at hchg; exact absurd rfl hchg
          · rw [if_neg hne] at hchg
            by_cases hst : swap.status ≠ SwapStatus.pending
            · rw [if_pos hst] at hchg; exact absurd rfl hchg
            · exact ⟨swap, rfl, by rw [← hid]; exact not_not.mp hne, not_not.mp hst⟩
    · unfold respond at hchg
      rw [if_pos ha] at hchg
      exact absurd rfl hchg

@[simp]
theorem users_saveItem (db : Db) (it : Item) : (db.saveItem it).users = db.users := rfl

@[simp]
theorem items_saveUser (db : Db) (u : User) : (db.saveUser u).items = db.items := rfl

theorem acceptItems_spec (db : Db) (swap : Swap) (requested : Item) (itemOffered : Option Item)
    (hreq : db.findItem requested._id = some requested)
    (hoff : ∀ offered, itemOffered = some offered → db.findItem offered._id = some offered) :
    ∃ db2, acceptItems db swap (some requested) itemOffered = some db2 ∧
      db2.users = db.users ∧ db2.swaps = db.swaps ∧
      db2.findItem requested._id = some { requested with status := ItemStatus.swapped } ∧
      (swap.type = SwapType.direct_swap → ∀ offered, itemOffered = some offered →
        db2.findItem offered._id = some { offered with status := ItemStatus.swapped }) := by
  unfold acceptItems
  by_cases hc : swap.type = SwapType.direct_swap ∧ itemOffered.isSome = true
  · rw [if_pos hc]
    cases hio : itemOffered with
    | none => rw [hio] at hc; simp at hc
    | some offered =>
      have ho := hoff offered hio
      refine ⟨_, rfl, rfl, rfl, ?_, ?_⟩
      · by_cases he : requested._id = offered._id
        · have : requested = offered := by
            rw [he] at hreq
            rw [hreq] at ho
            exact Option.some.inj ho
          subst this
          simp [findItem_saveItem, hreq]
        · simp [findItem_saveItem, he, hreq]
      · intro _ offered1 h1
        cases h1
        by_cases he : offered._id = requested._id
        · simp [findItem_saveItem, he, hreq]
        · simp [findItem_saveItem, he, ho]
  · rw [if_neg hc]
    refine ⟨_, rfl, rfl, rfl, ?_, ?_⟩
    · simp [findItem_saveItem, hreq]
    · intro ht offered hio
      rw [hio] at hc
      exact absurd ⟨ht, rfl⟩ hc

theorem acceptUsers_spec (db : Db) (swap : Swap) (requester owner : User)
    (htype : swap.type = SwapType.direct_swap)
    (hr : db.findUser requester._id = some requester)
    (ho : db.findUser owner._id = some owner) :
    ∃ db3, acceptUsers db swap (some requester) owner = some db3 ∧
      db3.items = db.items ∧ db3.swaps = db.swaps ∧
      db3.findUser requester._id =
        some { requester with
          points := requester.points + 5
          stats := { requester.stats with
            pointsEarned := requester.stats.pointsEarned + 5
            swapsCompleted := requester.stats.swapsCompleted + 1 } } ∧
      db3.findUser owner._id =
        some { owner with
          points := owner.points + 5
          stats := { owner.stats with
            pointsEarned := owner.stats.pointsEarned + 5
            swapsCompleted := owner.stats.swapsCompleted + 1 } } := by
  unfold acceptUsers
  simp only [htype, if_true]
  refine ⟨_, rfl, rfl, rfl, ?_, ?_⟩
  · by_cases he : requester._id = owner._id
    · have : requester = owner := by
        rw [he] at hr
        rw [hr] at ho
        exact Option.some.inj ho
      subst this
      simp [findUser_saveUser, User.updateStats, User.addPoints, Stats.set, Stats.get,
        orZero_eq, hr]
    · simp [findUser_saveUser, User.updateStats, User.addPoints, Stats.set, Stats.get,
        orZero_eq, hr, he]
  · by_cases he : requester._id = owner._id
    · have : requester = owner := by
        rw [he] at hr
        rw [hr] at ho
        exact Option.some.inj ho
      subst this
      simp [findUser_saveUser, User.updateStats, User.addPoints, Stats.set, Stats.get,
        orZero_eq, hr]
    · have he2 : ¬ owner._id = requester._id := fun e => he e.symm
      simp [findUser_saveUser, User.updateStats, User.addPoints, Stats.set, Stats.get,
        orZero_eq, ho, he2]

theorem findUser_of_users_eq (db1 db2 : Db) (h : db1.users = db2.users) (i : ObjectId) :
    db1.findUser i = db2.findUser i := by
  unfold Db.findUser
  rw [h]

theorem findItem_of_items_eq (db1 db2 : Db) (h : db1.items = db2.items) (i : ObjectId) :
    db1.findItem i = db2.findItem i := by
  unfold Db.findItem
  rw [h]

/-- C13: when the owner accepts a pending direct swap (the requested item and
the requester being on record), the route answers 200; the requested item is
stored with status `swapped`, and so is the offered item if one was offered;
requester and owner each end with 5 more `points`, 5 more `pointsEarned` and 1
more `swapsCompleted`; and the Swap record is stored with status `accepted`. -/
theorem respond_accept_direct (db : Db) (reqUser requester : User) (requested : Item)
    (swap : Swap) (swapId : ObjectId) (now : Nat)
    (hswap : db.findSwap swapId = some swap)
    (hst : swap.status = SwapStatus.pending)
    (htype : swap.type = SwapType.direct_swap)
    (hcaller : swap.owner = reqUser._id)
    (hfresh : db.findUser reqUser._id = some reqUser)
    (hrequester : db.findUser swap.requester = some requester)
    (hrequested : db.findItem swap.itemRequested = some requested) :
    (respond db reqUser swapId "accept" now).1.status = 200 ∧
    (respond db reqUser swapId "accept" now).2.findSwap swapId =
      some { swap with status := SwapStatus.accepted } ∧
    (respond db reqUser swapId "accept" now).2.findItem swap.itemRequested =
      some { requested with status := ItemStatus.swapped } ∧
    (∀ oid offered, swap.itemOffered = some oid → db.findItem oid = some offered →
      (respond db reqUser swapId "accept" now).2.findItem oid =
        some { offered with status := ItemStatus.swapped }) ∧
    (respond db reqUser swapId "accept" now).2.findUser swap.requester =
      some { requester with
        points := requester.points + 5
        stats := { requester.stats with
          pointsEarned := requester.stats.pointsEarned + 5
          swapsCompleted := requester.stats.swapsCompleted + 1 } } ∧
    (respond db reqUser swapId "accept" now).2.findUser swap.owner =
      some { reqUser with
        points := reqUser.points + 5
        stats := { reqUser.stats with
          pointsEarned := reqUser.stats.pointsEarned + 5
          swapsCompleted := reqUser.stats.swapsCompleted + 1 } } := by
  have hown : db.findUser swap.owner = some reqUser := by rw [hcaller]; exact hfresh
  have hsid : swap._id = swapId := findSwap_id db _ _ hswap
  have hrid : requested._id = swap.itemRequested := findItem_id db _ _ hrequested
  have hqid : requester._id = swap.requester := findUser_id db _ _ hrequester
  have htype1 : (swap.updateStatus SwapStatus.accepted now).type = SwapType.direct_swap := htype
  obtain ⟨db2, hAI, hu2, hs2, hreq2, hoff2⟩ :=
    acceptItems_spec (db.saveSwap (swap.updateStatus SwapStatus.accepted now))
      (swap.updateStatus SwapStatus.accepted now) requested
      (swap.itemOffered.bind db.findItem)
      (by rw [findItem_saveSwap, hrid]; exact hrequested)
      (by
        intro offered hb
        cases hio : swap.itemOffered with
        | none => rw [hio] at hb; cases hb
        | some oid =>
          rw [hio] at hb
          have hb1 : db.findItem oid = some offered := hb
          rw [findItem_saveSwap, findItem_id db _ _ hb1]
          exact hb1)
  have hfu2 : ∀ i, db2.findUser i = db.findUser i := fun i =>
    findUser_of_users_eq db2 db (by rw [hu2]; rfl) i
  obtain ⟨db3, hAU, hi3, hs3, hreq3, hown3⟩ :=
    acceptUsers_spec db2 (swap.updateStatus SwapStatus.accepted now) requester reqUser htype1
      (by rw [hfu2, hqid]; exact hrequester) (by rw [hfu2]; exact hfresh)
  have key : respond db reqUser swapId "accept" now =
      ({ status := 200, message := "Swap request accepted successfully",
         swap := some (swap.updateStatus SwapStatus.accepted now) }, db3) := by
    unfold respond
    rw [if_neg (by simp), hswap]
    simp only [hown, hrequested, hrequester]
    rw [if_neg (by simp), if_neg (by simp [hst])]
    simp only [if_true, hAI, hAU]
  have hfi3 : ∀ i, db3.findItem i = db2.findItem i := fun i =>
    findItem_of_items_eq db3 db2 hi3 i
  rw [key]
  refine ⟨rfl, ?_, ?_, ?_, ?_, ?_⟩
  · show db3.findSwap swapId = _
    rw [findSwap_of_swaps_eq db3 db2 hs3, findSwap_of_swaps_eq db2 _ hs2, findSwap_saveSwap]
    have : swapId = (swap.updateStatus SwapStatus.accepted now)._id := hsid.symm
    rw [if_pos this, hswap]
    rfl
  · show db3.findItem swap.itemRequested = _
    rw [hfi3, ← hrid]
    exact hreq2
  · intro oid offered hio hfo
    show db3.findItem oid = _
    rw [hfi3, ← findItem_id db _ _ hfo]
    refine hoff2 htype1 offered ?_
    rw [hio]
    exact hfo
  · show db3.findUser swap.requester = _
    rw [← hqid]
    exact hreq3
  · show db3.findUser swap.owner = _
    rw [hcaller]
    exact hown3

theorem respond_accept_direct_witness :
    (respond requestedDb userA 500 "accept" 7).1.status = 200 ∧
    ((respond requestedDb userA 500 "accept" 7).2.findSwap 500).map Swap.status =
      some SwapStatus.accepted ∧
    ((respond requestedDb userA 500 "accept" 7).2.findItem 10).map Item.status =
      some ItemStatus.swapped ∧
    ((respond requestedDb userA 500 "accept" 7).2.findItem 20).map Item.status =
      some ItemStatus.swapped ∧
    ((respond requestedDb userA 500 "accept" 7).2.findUser 2).map User.points = some 55 ∧
    ((respond requestedDb userA 500 "accept" 7).2.findUser 1).map User.points = some 105 :=
  have h := respond_accept_direct requestedDb userA userB itemXRequested offerSwap 500 7
    rfl rfl rfl rfl rfl rfl rfl
  ⟨h.1, congrArg (Option.map Swap.status) h.2.1,
   congrArg (Option.map Item.status) h.2.2.1,
   congrArg (Option.map Item.status) (h.2.2.2.1 20 itemY rfl rfl),
   congrArg (Option.map User.points) h.2.2.2.2.1,
   congrArg (Option.map User.points) h.2.2.2.2.2⟩

/-- C14: when the owner rejects a pending swap, the route answers 200 and the
only write is the Swap record, stored with status `rejected` and `rejectedAt`
set to the time of the call; `completedAt` and `cancelledAt` are what they were
(unset, if they were unset), and the users and items collections, hence the
status of both items and the points and stats of both users, are untouched. -/
theorem respond_reject (db : Db) (reqUser : User) (swap : Swap) (swapId : ObjectId) (now : Nat)
    (hswap : db.findSwap swapId = some swap)
    (hst : swap.status = SwapStatus.pending)
    (hcaller : swap.owner = reqUser._id)
    (hfresh : db.findUser reqUser._id = some reqUser) :
    (respond db reqUser swapId "reject" now).1.status = 200 ∧
    (respond db reqUser swapId "reject" now).2.findSwap swapId =
      some { swap with status := SwapStatus.rejected, rejectedAt := some now } ∧
    (∀ stored, (respond db reqUser swapId "reject" now).2.findSwap swapId = some stored →
      stored.status = SwapStatus.rejected ∧ stored.rejectedAt = some now ∧
      stored.completedAt = swap.completedAt ∧ stored.cancelledAt = swap.cancelledAt) ∧
    (respond db reqUser swapId "reject" now).2.users = db.users ∧
    (respond db reqUser swapId "reject" now).2.items = db.items := by
  have hown : db.findUser swap.owner = some reqUser := by rw [hcaller]; exact hfresh
  have hsid : swap._id = swapId := findSwap_id db _ _ hswap
  have key : respond db reqUser swapId "reject" now =
      ({ status := 200, message := "Swap request rejected",
         swap := some (swap.updateStatus SwapStatus.rejected now) },
       db.saveSwap (swap.updateStatus SwapStatus.rejected now)) := by
    unfold respond
    rw [if_neg (by simp), hswap]
    simp only [hown]
    rw [if_neg (by simp), if_neg (by simp [hst]), if_neg (by decide)]
  have hfind : (db.saveSwap (swap.updateStatus SwapStatus.rejected now)).findSwap swapId =
      some { swap with status := SwapStatus.rejected, rejectedAt := some now } := by
    rw [findSwap_saveSwap]
    have : swapId = (swap.updateStatus SwapStatus.rejected now)._id := hsid.symm
    rw [if_pos this, hswap]
    rfl
  rw [key]
  refine ⟨rfl, hfind, ?_, rfl, rfl⟩
  intro stored hstored
  have hs : stored = { swap with status := SwapStatus.rejected, rejectedAt := some now } :=
    Option.some.inj (hstored.symm.trans hfind)
  rw [hs]
  exact ⟨rfl, rfl, rfl, rfl⟩

theorem respond_reject_witness :
    (respond requestedDb userA 500 "reject" 7).1.status = 200 ∧
    (respond requestedDb userA 500 "reject" 7).2.findSwap 500 =
      some { offerSwap with status := SwapStatus.rejected, rejectedAt := some 7 } ∧
    (respond requestedDb userA 500 "reject" 7).2.users = requestedDb.users ∧
    (respond requestedDb userA 500 "reject" 7).2.items = requestedDb.items :=
  have h := respond_reject requestedDb userA offerSwap 500 7 rfl rfl rfl rfl
  ⟨h.1, h.2.1, h.2.2.2.1, h.2.2.2.2⟩

/-- C15, the failing input: user B asks for item X (Swap record 500, embedded
request 600) and owner A answers. After `reject` the Swap record is `rejected`
and after `accept` it is `accepted`, while the embedded request of B on item X
is still `pending` in both cases: the route never calls `updateSwapRequest`. -/
theorem respond_leaves_embedded_pending :
    (requestedDb.findSwap 500).map Swap.status = some SwapStatus.pending ∧
    (requestedDb.findItem 10).map (fun i => i.swapRequests.map (fun r => (r.requester, r.status))) =
      some [(2, RequestStatus.pending)] ∧
    (respond requestedDb userA 500 "reject" 7).1.status = 200 ∧
    ((respond requestedDb userA 500 "reject" 7).2.findSwap 500).map Swap.status =
      some SwapStatus.rejected ∧
    ((respond requestedDb userA 500 "reject" 7).2.findItem 10).map
        (fun i => i.swapRequests.map (fun r => (r.requester, r.status))) =
      some [(2, RequestStatus.pending)] ∧
    (respond requestedDb userA 500 "accept" 7).1.status = 200 ∧
    ((respond requestedDb userA 500 "accept" 7).2.findSwap 500).map Swap.status =
      some SwapStatus.accepted ∧
    ((respond requestedDb userA 500 "accept" 7).2.findItem 10).map
        (fun i => i.swapRequests.map (fun r => (r.requester, r.status))) =
      some [(2, RequestStatus.pending)] := by
  refine ⟨rfl, rfl, rfl, rfl, rfl, rfl, rfl, rfl⟩

/-- C16, the failing input: user B asks for item X (Swap record 500), then user
C redeems item X, which is stored as `swapped` (Swap record 700, completed), and
then owner A accepts the stale request of B. The accept is answered 200: B and A
each receive the 5 bonus points and one more `swapsCompleted`, and item X ends
up given away both by redemption 700 and by swap 500. -/
theorem respond_accepts_stale_request :
    ((redeem (requestSwap tripleDb userB 10 none none 500 600 0).2 userC 10 700).2.findItem
        10).map Item.status = some ItemStatus.swapped ∧
    (redeem (requestSwap tripleDb userB 10 none none 500 600 0).2 userC 10 700).2.findUser 1 =
      some userAPaid ∧
    ((redeem (requestSwap tripleDb userB 10 none none 500 600 0).2 userC 10 700).2.findUser
        2).map (fun u => (u.points, u.stats.swapsCompleted)) = some (50, 0) ∧
    (respond (redeem (requestSwap tripleDb userB 10 none none 500 600 0).2 userC 10 700).2
        userAPaid 500 "accept" 9).1.status = 200 ∧
    ((respond (redeem (requestSwap tripleDb userB 10 none none 500 600 0).2 userC 10 700).2
        userAPaid 500 "accept" 9).2.findUser 2).map
        (fun u => (u.points, u.stats.swapsCompleted)) = some (55, 1) ∧
    ((respond (redeem (requestSwap tripleDb userB 10 none none 500 600 0).2 userC 10 700).2
        userAPaid 500 "accept" 9).2.findUser 1).map
        (fun u => (u.points, u.stats.swapsCompleted)) = some (125, 2) ∧
    ((respond (redeem (requestSwap tripleDb userB 10 none none 500 600 0).2 userC 10 700).2
        userAPaid 500 "accept" 9).2.swaps.map
        (fun s => (s._id, s.itemRequested, s.requester, s.status))) =
      [(500, 10, 2, SwapStatus.accepted), (700, 10, 3, SwapStatus.completed)] := by
  refine ⟨rfl, rfl, rfl, rfl, rfl, rfl, rfl⟩

/-! ## The state machine of a Swap record -/

theorem updateStatus_status (s : Swap) (newStatus : SwapStatus) (now : Nat) :
    (s.updateStatus newStatus now).status = newStatus := by
  cases newStatus <;> rfl

theorem updateStatus_id (s : Swap) (newStatus : SwapStatus) (now : Nat) :
    (s.updateStatus newStatus now)._id = s._id := by
  cases newStatus <;> rfl

theorem acceptItems_swaps (db db2 : Db) (swap : Swap) (a b : Option Item)
    (h : acceptItems db swap a b = some db2) : db2.swaps = db.swaps := by
  unfold acceptItems at h
  split at h
  · split at h
    · cases h; rfl
    · cases h
  · split at h
    · cases h; rfl
    · cases h

theorem acceptUsers_swaps (db db3 : Db) (swap : Swap) (r : Option User) (o : User)
    (h : acceptUsers db swap r o = some db3) : db3.swaps = db.swaps := by
  unfold acceptUsers at h
  split at h
  · cases h
  · simp only at h
    split at h <;> (cases h; rfl)

theorem respond_swaps (db : Db) (reqUser : User) (swapId : ObjectId) (action : String)
    (now : Nat) :
    (respond db reqUser swapId action now).2.swaps = db.swaps ∨
    ∃ swap newStatus, db.findSwap swapId = some swap ∧ swap.status = SwapStatus.pending ∧
      (newStatus = SwapStatus.accepted ∨ newStatus = SwapStatus.rejected) ∧
      (respond db reqUser swapId action now).2.swaps =
        (db.saveSwap (swap.updateStatus newStatus now)).swaps := by
  by_cases ha : action = "accept" ∨ action = "reject"
  · cases hswap : db.findSwap swapId with
    | none =>
      unfold respond
      rw [if_neg (not_not.mpr ha), hswap]
      exact Or.inl rfl
    | some swap =>
      cases hown : db.findUser swap.owner with
      | none =>
        unfold respond
        rw [if_neg (not_not.mpr ha), hswap]
        simp [hown]
      | some owner =>
        by_cases hne : owner._id ≠ reqUser._id
        · unfold respond
          rw [if_neg (not_not.mpr ha), hswap]
          simp only [hown]
          rw [if_pos hne]
          exact Or.inl rfl
        · by_cases hst : swap.status ≠ SwapStatus.pending
          · unfold respond
            rw [if_neg (not_not.mpr ha), hswap]
            simp only [hown]
            rw [if_neg hne, if_pos hst]
            exact Or.inl rfl
          · have hp : swap.status = SwapStatus.pending := not_not.mp hst
            by_cases hacc : action = "accept"
            · refine Or.inr ⟨swap, SwapStatus.accepted, rfl, hp, Or.inl rfl, ?_⟩
              cases hAI : acceptItems (db.saveSwap (swap.updateStatus SwapStatus.accepted now))
                  (swap.updateStatus SwapStatus.accepted now) (db.findItem swap.itemRequested)
                  (swap.itemOffered.bind db.findItem) with
              | none =>
                unfold respond
                rw [if_neg (not_not.mpr ha), hswap]
                simp only [hown]
                rw [if_neg hne, if_neg hst, if_pos hacc]
                simp only [hAI]
              | some db2 =>
                have h2 := acceptItems_swaps _ _ _ _ _ hAI
                cases hAU : acceptUsers db2 (swap.updateStatus SwapStatus.accepted now)
                    (db.findUser swap.requester) owner with
                | none =>
                  unfold respond
                  rw [if_neg (not_not.mpr ha), hswap]
                  simp only [hown]
                  rw [if_neg hne, if_neg hst, if_pos hacc]
                  simp only [hAI, hAU]
                  exact h2
                | some db3 =>
                  unfold respond
                  rw [if_neg (not_not.mpr ha), hswap]
                  simp only [hown]
                  rw [if_neg hne, if_neg hst, if_pos hacc]
                  simp only [hAI, hAU]
                  exact (acceptUsers_swaps _ _ _ _ _ hAU).trans h2
            · refine Or.inr ⟨swap, SwapStatus.rejected, rfl, hp, Or.inr rfl, ?_⟩
              unfold respond
              rw [if_neg (not_not.mpr ha), hswap]
              simp only [hown]
              rw [if_neg hne, if_neg hst, if_neg hacc]
  · unfold respond
    rw [if_pos ha]
    exact Or.inl rfl

/-- C17 fails as stated: `updateStatus('pending')` on a completed Swap record
sets its status back to `pending`, which is not an edge of the state machine. -/
theorem updateStatus_moves_backward :
    completedSwap.status = SwapStatus.completed ∧
    (completedSwap.updateStatus SwapStatus.pending 9).status = SwapStatus.pending ∧
    allowedSwapTransition completedSwap.status
      (completedSwap.updateStatus SwapStatus.pending 9).status = false := by
  decide

/-- C17, amended: `Swap.updateStatus(newStatus)` sets the status to `newStatus`
whatever the current status is; the forward-only movement holds of the respond
operation, which calls it: across any respond call the status of every Swap
record either stays what it was or moves along `pending → accepted` or
`pending → rejected`, so the status of a record that is accepted, rejected,
completed or cancelled is not changed. -/
theorem swap_status_forward :
    (∀ (s : Swap) (newStatus : SwapStatus) (now : Nat),
      (s.updateStatus newStatus now).status = newStatus) ∧
    (∀ (db : Db) (reqUser : User) (swapId : ObjectId) (action : String) (now : Nat)
        (i : ObjectId),
      ((respond db reqUser swapId action now).2.findSwap i).map Swap.status =
          (db.findSwap i).map Swap.status ∨
      ((db.findSwap i).map Swap.status = some SwapStatus.pending ∧
        ∃ newStatus, (newStatus = SwapStatus.accepted ∨ newStatus = SwapStatus.rejected) ∧
          allowedSwapTransition SwapStatus.pending newStatus = true ∧
          ((respond db reqUser swapId action now).2.findSwap i).map Swap.status =
            some newStatus)) := by
  refine ⟨updateStatus_status, ?_⟩
  intro db reqUser swapId action now i
  rcases respond_swaps db reqUser swapId action now with h | ⟨swap, st, hswap, hp, hst, h⟩
  · exact Or.inl (congrArg _ (findSwap_of_swaps_eq _ _ h i))
  · have hfind := findSwap_of_swaps_eq _ _ h i
    rw [findSwap_saveSwap, updateStatus_id] at hfind
    have hsid : swap._id = swapId := findSwap_id db _ _ hswap
    by_cases hi : i = swap._id
    · rw [if_pos hi] at hfind
      have hi2 : i = swapId := hi.trans hsid
      subst hi2
      rw [hswap] at hfind
      refine Or.inr ⟨by rw [hswap]; exact congrArg some hp, st, hst, ?_, ?_⟩
      · rcases hst with e | e <;> (rw [e]; rfl)
      · rw [hfind]
        exact congrArg some (updateStatus_status swap st now)
    · rw [if_neg hi] at hfind
      exact Or.inl (congrArg _ hfind)

/-! ## Terminal timestamps -/

theorem updateStatus_terminalStamped (s : Swap) (newStatus : SwapStatus) (now : Nat) :
    (s.updateStatus newStatus now).terminalStamped = true := by
  cases newStatus <;> rfl

/-- C18, the failing input: the redemption of item X by user B in the scenario
store. The Swap record it produces has status `completed` and no `completedAt`:
the route passes `status: 'completed'` to `Swap.create` and never goes through
`updateStatus`, the one place that stamps `completedAt`. -/
theorem redeem_swap_not_stamped :
    (redeem scenarioDb userB 10 500).1.status = 200 ∧
    ((redeem scenarioDb userB 10 500).2.findSwap 500).map
        (fun s => (s.status, s.completedAt)) = some (SwapStatus.completed, none) ∧
    ((redeem scenarioDb userB 10 500).2.findSwap 500).map Swap.terminalStamped = some false ∧
    ((redeem scenarioDb userB 10 500).1.swap).map Swap.terminalStamped = some false := by
  refine ⟨rfl, rfl, rfl, rfl⟩

/-! ## Moderation -/

/-- C19: on a pending item, approve answers 200, stores the item with status
`available` and leaves its uploader with exactly 10 more `points` and 10 more
`pointsEarned` (every other user as before); approving the item again right
after is answered 400 and changes nothing, so the uploader has gained 10 points
in total. On an item that is not pending, approve is answered 400 and the whole
store, items and balances, is left as it was. -/
theorem approve_spec (db : Db) (item : Item) (itemId : ObjectId)
    (hitem : db.findItem itemId = some item) :
    (item.status = ItemStatus.pending →
      (approve db itemId).1.status = 200 ∧
      (approve db itemId).2.findItem itemId =
        some { item with status := ItemStatus.available } ∧
      (∀ owner, db.findUser item.uploadedBy = some owner →
        (approve db itemId).2.findUser item.uploadedBy =
          some { owner with
            points := owner.points + 10
            stats := { owner.stats with pointsEarned := owner.stats.pointsEarned + 10 } }) ∧
      (∀ i, i ≠ item.uploadedBy → (approve db itemId).2.findUser i = db.findUser i) ∧
      approve (approve db itemId).2 itemId =
        ({ status := 400, message := "Item is not pending approval" },
         (approve db itemId).2)) ∧
    (item.status ≠ ItemStatus.pending →
      approve db itemId = ({ status := 400, message := "Item is not pending approval" }, db)) := by
  have hid : item._id = itemId := findItem_id db _ _ hitem
  have hrefuse : ∀ (db1 : Db) (item1 : Item), db1.findItem itemId = some item1 →
      item1.status ≠ ItemStatus.pending →
      approve db1 itemId =
        ({ status := 400, message := "Item is not pending approval" }, db1) := by
    intro db1 item1 h1 hs
    unfold approve
    rw [h1]
    simp only
    rw [if_pos hs]
  refine ⟨?_, hrefuse db item hitem⟩
  intro hs
  have hstored : ∀ db2 : Db, db2.items = (db.saveItem { item with status := ItemStatus.available }).items →
      db2.findItem itemId = some { item with status := ItemStatus.available } := by
    intro db2 h2
    rw [findItem_of_items_eq db2 _ h2, findItem_saveItem]
    have : itemId = ({ item with status := ItemStatus.available } : Item)._id := hid.symm
    rw [if_pos this, hitem]
    rfl
  cases hown : db.findUser item.uploadedBy with
  | none =>
    have key : approve db itemId =
        ({ status := 200, message := "Item approved successfully",
           item := some { item with status := ItemStatus.available } },
         db.saveItem { item with status := ItemStatus.available }) := by
      unfold approve
      rw [hitem]
      simp only
      rw [if_neg (not_not.mpr hs)]
      simp only [findUser_saveItem, hown]
    rw [key]
    refine ⟨rfl, hstored _ rfl, ?_, ?_, ?_⟩
    · intro owner ho
      cases ho
    · intro i _
      rfl
    · exact hrefuse _ _ (hstored _ rfl) (by simp)
  | some owner0 =>
    have hoid : owner0._id = item.uploadedBy := findUser_id db _ _ hown
    have key : approve db itemId =
        ({ status := 200, message := "Item approved successfully",
           item := some { item with status := ItemStatus.available } },
         (db.saveItem { item with status := ItemStatus.available }).saveUser
           (owner0.addPoints 10)) := by
      unfold approve
      rw [hitem]
      simp only
      rw [if_neg (not_not.mpr hs)]
      simp only [findUser_saveItem, hown]
    rw [key]
    refine ⟨rfl, hstored _ rfl, ?_, ?_, ?_⟩
    · intro owner ho
      cases ho
      rw [findUser_saveUser]
      have : item.uploadedBy = (owner0.addPoints 10)._id := hoid.symm
      rw [if_pos this, findUser_saveItem, hown]
      rfl
    · intro i hi
      rw [findUser_saveUser]
      have : ¬ i = (owner0.addPoints 10)._id := fun e => hi (e.trans hoid)
      rw [if_neg this, findUser_saveItem]
    · exact hrefuse _ _ (hstored _ rfl) (by simp)

theorem approve_spec_witness :
    (approve moderationDb 11).1.status = 200 ∧
    ((approve moderationDb 11).2.findItem 11).map Item.status = some ItemStatus.available ∧
    ((approve moderationDb 11).2.findUser 1).map User.points = some 110 ∧
    approve (approve moderationDb 11).2 11 =
      ({ status := 400, message := "Item is not pending approval" },
       (approve moderationDb 11).2) :=
  have h := (approve_spec moderationDb pendingItem 11 rfl).1 rfl
  ⟨h.1, congrArg (Option.map Item.status) h.2.1,
   congrArg (Option.map User.points) (h.2.2.1 userA rfl), h.2.2.2.2⟩

theorem reject_spec (db : Db) (item : Item) (itemId : ObjectId) (reason : Option String)
    (hitem : db.findItem itemId = some item) :
    (item.status = ItemStatus.pending →
      (reject db itemId reason).1.status = 200 ∧
      (reject db itemId reason).2.findItem itemId =
        some { item with status := ItemStatus.rejected } ∧
      (reject db itemId reason).2.users = db.users ∧
      (reject db itemId reason).2.swaps = db.swaps) ∧
    (item.status ≠ ItemStatus.pending →
      reject db itemId reason =
        ({ status := 400, message := "Item is not pending approval" }, db)) := by
  have hid : item._id = itemId := findItem_id db _ _ hitem
  constructor
  · intro hs
    have key : reject db itemId reason =
        ({ status := 200, message := "Item rejected",
           item := some { item with status := ItemStatus.rejected } },
         db.saveItem { item with status := ItemStatus.rejected }) := by
      unfold reject
      rw [hitem]
      simp only
      rw [if_neg (not_not.mpr hs)]
      cases reason <;> rfl
    rw [key]
    refine ⟨rfl, ?_, rfl, rfl⟩
    rw [findItem_saveItem]
    have : itemId = ({ item with status := ItemStatus.rejected } : Item)._id := hid.symm
    rw [if_pos this, hitem]
    rfl
  · intro hs
    unfold reject
    rw [hitem]
    simp only
    rw [if_pos hs]

/-- C20, the failing input: the pending item of the moderation store is rejected
with the reason `stained`. The item is stored with status `rejected` and no
points are awarded, but the reason is nowhere in the store or in the response:
the call leaves exactly what a rejection without a reason leaves, because
`rejectionReason` is not a path of `itemSchema` and `save` drops it. -/
theorem reject_drops_reason :
    reject moderationDb 11 (some "stained") =
      ({ status := 200, message := "Item rejected",
         item := some { pendingItem with status := ItemStatus.rejected } },
       { users := [userA], items := [{ pendingItem with status := ItemStatus.rejected }] }) ∧
    reject moderationDb 11 (some "stained") = reject moderationDb 11 none := by
  refine ⟨rfl, rfl⟩

/-! ## The response of a redemption -/

/-- C30, the failing input: the redemption of item X (20 points) by user B (50
points) in the scenario store. The call succeeds and leaves B with 30 points,
but the response reports `pointsRemaining = 10`: the route computes
`req.user.points - item.pointValue` after `deductPoints` has already taken the
point value off `req.user.points`. -/
theorem redeem_pointsRemaining_off :
    (redeem scenarioDb userB 10 500).1.status = 200 ∧
    ((redeem scenarioDb userB 10 500).2.findUser 2).map User.points = some 30 ∧
    (redeem scenarioDb userB 10 500).1.pointsRemaining = some 10 := by
  refine ⟨rfl, rfl, rfl⟩

/-! ## Pagination -/

/-- C29: for `page ≥ 1` and `limit ≥ 1`, the page holds
`min(limit, max(0, total - skip))` documents with `skip = (page - 1) * limit`,
`pages` is `ceil(total / limit)`, the reported `hasNext` is true exactly when
`page < pages`, and `hasPrev` is true exactly when `page > 1`. -/
theorem pagination_consistent {α : Type} (matching : List α) (page limit : Nat)
    (hp : 1 ≤ page) (hl : 1 ≤ limit) :
    (paginate matching page limit).1.length =
      min limit (matching.length - (page - 1) * limit) ∧
    (paginate matching page limit).2.total = matching.length ∧
    (paginate matching page limit).2.pages * limit < matching.length + limit ∧
    matching.length ≤ (paginate matching page limit).2.pages * limit ∧
    ((paginate matching page limit).2.hasNext = true ↔
      page < (paginate matching page limit).2.pages) ∧
    ((paginate matching page limit).2.hasPrev = true ↔ page > 1) := by
  have hlen : ((matching.drop ((page - 1) * limit)).take limit).length =
      min limit (matching.length - (page - 1) * limit) := by
    rw [List.length_take, List.length_drop]
  have hmul : page * limit = (page - 1) * limit + limit := by
    have : page = (page - 1) + 1 := by omega
    conv_lhs => rw [this]
    rw [Nat.add_mul, Nat.one_mul]
  have hlt : ∀ k : Nat, k < ceilDiv matching.length limit ↔ k * limit < matching.length := by
    intro k
    unfold ceilDiv
    rw [Nat.lt_iff_add_one_le, Nat.le_div_iff_mul_le (by omega), Nat.add_mul, Nat.one_mul]
    omega
  have hpages1 : ceilDiv matching.length limit * limit < matching.length + limit := by
    by_contra hc
    have hc1 : matching.length + limit ≤ ceilDiv matching.length limit * limit := by omega
    have hpos : 0 < ceilDiv matching.length limit := by
      rcases Nat.eq_zero_or_pos (ceilDiv matching.length limit) with h0 | h0
      · rw [h0] at hc1; omega
      · exact h0
    have hk : ceilDiv matching.length limit - 1 < ceilDiv matching.length limit := by omega
    have := (hlt _).1 hk
    have hsub : (ceilDiv matching.length limit - 1) * limit + limit =
        ceilDiv matching.length limit * limit := by
      have : ceilDiv matching.length limit = (ceilDiv matching.length limit - 1) + 1 := by omega
      conv_rhs => rw [this]
      rw [Nat.add_mul, Nat.one_mul]
    omega
  have hpages2 : matching.length ≤ ceilDiv matching.length limit * limit := by
    by_contra hc
    have hc1 : ceilDiv matching.length limit * limit < matching.length := by omega
    have := (hlt _).2 hc1
    omega
  refine ⟨hlen, rfl, hpages1, hpages2, ?_, ?_⟩
  · show decide (_ < _) = true ↔ page < ceilDiv matching.length limit
    rw [decide_eq_true_iff, hlt, hlen, hmul]
    omega
  · show decide (page > 1) = true ↔ page > 1
    rw [decide_eq_true_iff]

theorem pagination_consistent_witness :
    (paginate [1, 2, 3, 4, 5] 2 2).1 = [3, 4] ∧
    (paginate [1, 2, 3, 4, 5] 2 2).2.pages = 3 ∧
    ((paginate [1, 2, 3, 4, 5] 2 2).2.hasNext = true ↔
      2 < (paginate [1, 2, 3, 4, 5] 2 2).2.pages) ∧
    ((paginate [1, 2, 3, 4, 5] 2 2).2.hasPrev = true ↔ 2 > 1) :=
  have h := pagination_consistent [1, 2, 3, 4, 5] 2 2 (by decide) (by decide)
  ⟨rfl, rfl, h.2.2.2.2.1, h.2.2.2.2.2⟩

/-! ## Deleting an item -/

theorem find_eraseP_of_nodup (id : ObjectId) :
    ∀ xs : List Item, (xs.map (fun x => x._id)).Nodup →
      (xs.eraseP (fun x => x._id == id)).find? (fun x => x._id == id) = none
  | [], _ => by simp
  | x :: xs, h => by
    rw [List.map_cons, List.nodup_cons] at h
    by_cases hx : x._id = id
    · have hnone : xs.find? (fun y => y._id == id) = none := by
        rw [List.find?_eq_none]
        intro y hy hyid
        have hyid1 : y._id = id := by simpa using hyid
        exact h.1 (by rw [hx, ← hyid1]; exact List.mem_map_of_mem _ hy)
      simp [List.eraseP_cons, hx, hnone]
    · have ih := find_eraseP_of_nodup id xs h.2
      simp [List.eraseP_cons, List.find?_cons, hx]
      simpa using ih

theorem activeSwap_exists_iff (db : Db) (id : ObjectId) :
    0 < (db.swaps.filter (isActiveSwapOf id)).length ↔
      ∃ s ∈ db.swaps, (s.itemRequested = id ∨ s.itemOffered = some id) ∧
        (s.status = SwapStatus.pending ∨ s.status = SwapStatus.accepted) := by
  rw [List.length_pos, ne_eq, List.filter_eq_nil_iff]
  constructor
  · intro h
    by_contra hc
    apply h
    intro s hs hact
    apply hc
    simp only [isActiveSwapOf, Bool.and_eq_true, Bool.or_eq_true, beq_iff_eq] at hact
    exact ⟨s, hs, hact.1, hact.2⟩
  · rintro ⟨s, hs, h1, h2⟩ hall
    apply hall s hs
    simp only [isActiveSwapOf, Bool.and_eq_true, Bool.or_eq_true, beq_iff_eq]
    exact ⟨h1, h2⟩

/-- C21: on an existing item, the admin delete is refused (400, with the whole
store, so the item, left in place) exactly when some Swap record references the
item as `itemRequested` or as `itemOffered` and has status `pending` or
`accepted`; otherwise it is answered 200 and the item is taken out of the items
collection, after which, `_id`s being unique, no item with that `_id` is found. -/
theorem adminDelete_spec (db : Db) (item : Item) (itemId : ObjectId)
    (hitem : db.findItem itemId = some item) :
    ((∃ s ∈ db.swaps, (s.itemRequested = itemId ∨ s.itemOffered = some itemId) ∧
        (s.status = SwapStatus.pending ∨ s.status = SwapStatus.accepted)) ↔
      ((adminDelete db itemId).1.status = 400 ∧ (adminDelete db itemId).2 = db)) ∧
    ((¬ ∃ s ∈ db.swaps, (s.itemRequested = itemId ∨ s.itemOffered = some itemId) ∧
        (s.status = SwapStatus.pending ∨ s.status = SwapStatus.accepted)) →
      (adminDelete db itemId).1.status = 200 ∧
      (adminDelete db itemId).2.items = db.items.eraseP (fun x => x._id == itemId) ∧
      (adminDelete db itemId).2.items.length + 1 = db.items.length ∧
      (adminDelete db itemId).2.users = db.users ∧
      (adminDelete db itemId).2.swaps = db.swaps ∧
      ((db.items.map (fun x => x._id)).Nodup →
        (adminDelete db itemId).2.findItem itemId = none)) := by
  have hid : item._id = itemId := findItem_id db _ _ hitem
  have hmem : item ∈ db.items := List.mem_of_find?_eq_some hitem
  have hact := activeSwap_exists_iff db itemId
  by_cases h : 0 < (db.swaps.filter (isActiveSwapOf itemId)).length
  · have key : adminDelete db itemId =
        ({ status := 400, message := "Cannot delete item with active swap requests" }, db) := by
      unfold adminDelete
      rw [hitem]
      simp only [hid]
      rw [if_pos h]
    rw [key]
    exact ⟨⟨fun _ => ⟨rfl, rfl⟩, fun _ => hact.1 h⟩, fun hn => absurd (hact.1 h) hn⟩
  · have key : adminDelete db itemId =
        ({ status := 200, message := "Item deleted successfully" }, db.deleteItem itemId) := by
      unfold adminDelete
      rw [hitem]
      simp only [hid]
      rw [if_neg h]
    rw [key]
    refine ⟨⟨fun he => absurd (hact.2 he) h, fun hc => ?_⟩, fun _ => ⟨rfl, rfl, ?_, rfl, rfl, ?_⟩⟩
    · have h2 : (200 : Nat) = 400 := hc.1
      exact absurd h2 (by decide)
    · show (db.items.eraseP (fun x => x._id == itemId)).length + 1 = db.items.length
      have hp : ∃ a ∈ db.items, (fun x : Item => x._id == itemId) a = true :=
        ⟨item, hmem, by simp [hid]⟩
      have hpos : 0 < db.items.length := List.length_pos_of_mem hmem
      rw [List.length_eraseP_of_mem hmem (by simp [hid])]
      omega
    · intro hnd
      exact find_eraseP_of_nodup itemId db.items hnd

theorem adminDelete_spec_witness :
    (adminDelete requestedDb 10).1.status = 400 ∧ (adminDelete requestedDb 10).2 = requestedDb ∧
    (adminDelete scenarioDb 10).1.status = 200 ∧
    (adminDelete scenarioDb 10).2.findItem 10 = none :=
  have h1 := (adminDelete_spec requestedDb itemXRequested 10 rfl).1.1
    ⟨offerSwap, by decide, Or.inl rfl, Or.inl rfl⟩
  have h2 := (adminDelete_spec scenarioDb itemX 10 rfl).2
    (by
      rintro ⟨s, hs, _⟩
      cases hs)
  ⟨h1.1, h1.2, h2.1, h2.2.2.2.2.2 (by decide)⟩

theorem ownerDelete_spec (db : Db) (reqUser : User) (item : Item) (itemId : ObjectId)
    (hitem : db.findItem itemId = some item) :
    (item.uploadedBy ≠ reqUser._id →
      ownerDelete db reqUser itemId =
        ({ status := 403, message := "Not authorized to delete this item" }, db)) ∧
    (item.uploadedBy = reqUser._id →
      (∃ r ∈ item.swapRequests, r.status = RequestStatus.pending) →
      ownerDelete db reqUser itemId =
        ({ status := 400, message := "Cannot delete item with pending swap requests" }, db)) ∧
    (item.uploadedBy = reqUser._id →
      (¬ ∃ r ∈ item.swapRequests, r.status = RequestStatus.pending) →
      ownerDelete db reqUser itemId =
        ({ status := 200, message := "Item deleted successfully" }, db.deleteItem itemId)) := by
  have hany : item.swapRequests.any (fun r => r.status == RequestStatus.pending) = true ↔
      ∃ r ∈ item.swapRequests, r.status = RequestStatus.pending := by
    simp [List.any_eq_true]
  refine ⟨?_, ?_, ?_⟩
  · intro hne
    unfold ownerDelete
    rw [hitem]
    simp only
    rw [if_pos hne]
  · intro ho hp
    unfold ownerDelete
    rw [hitem]
    simp only
    rw [if_neg (not_not.mpr ho), if_pos (hany.2 hp)]
  · intro ho hp
    unfold ownerDelete
    rw [hitem]
    simp only
    rw [if_neg (not_not.mpr ho), if_neg (fun h => hp (hany.1 h))]

/-- C22, the failing input: user B has asked for item X offering item Y, so the
pending Swap record 500 references item Y as `itemOffered`, and B deletes item
Y. The owner delete looks only at the embedded requests of the item, of which Y
has none: it is answered 200 and Y is gone, while Swap 500 is still pending and
points at it. The admin delete refuses the same item. -/
theorem ownerDelete_ignores_swaps :
    requestedDb.findSwap 500 = some offerSwap ∧
    offerSwap.status = SwapStatus.pending ∧ offerSwap.itemOffered = some 20 ∧
    (ownerDelete requestedDb userB 20).1 =
      { status := 200, message := "Item deleted successfully" } ∧
    (ownerDelete requestedDb userB 20).2.findItem 20 = none ∧
    (ownerDelete requestedDb userB 20).2.findSwap 500 = some offerSwap ∧
    (adminDelete requestedDb 20).1.status = 400 := by
  refine ⟨rfl, rfl, rfl, rfl, rfl, rfl, rfl⟩

/-! ## Viewing an item -/

/-- C27: viewing an existing item stores it with `views + 1`, every other field
as it was, when the request is anonymous or comes from a user other than the
uploader of the item; when it comes from the uploader, nothing is written and
the counter stays. Users and Swap records are never touched. -/
theorem viewItem_spec (db : Db) (item : Item) (itemId : ObjectId)
    (hitem : db.findItem itemId = some item) :
    ((viewItem db none itemId).1.status = 200 ∧
      (viewItem db none itemId).2.findItem itemId = some { item with views := item.views + 1 } ∧
      (viewItem db none itemId).2.users = db.users ∧
      (viewItem db none itemId).2.swaps = db.swaps) ∧
    (∀ viewer uploader : User, db.findUser item.uploadedBy = some uploader →
      (viewer._id ≠ item.uploadedBy →
        (viewItem db (some viewer) itemId).1.status = 200 ∧
        (viewItem db (some viewer) itemId).2.findItem itemId =
          some { item with views := item.views + 1 } ∧
        (viewItem db (some viewer) itemId).2.users = db.users ∧
        (viewItem db (some viewer) itemId).2.swaps = db.swaps) ∧
      (viewer._id = item.uploadedBy →
        viewItem db (some viewer) itemId =
          ({ status := 200, message := "", item := some item }, db))) := by
  have hid : item._id = itemId := findItem_id db _ _ hitem
  have hstored : (db.saveItem item.incrementViews).findItem itemId =
      some { item with views := item.views + 1 } := by
    rw [findItem_saveItem]
    have : itemId = item.incrementViews._id := hid.symm
    rw [if_pos this, hitem]
    rfl
  constructor
  · have key : viewItem db none itemId =
        ({ status := 200, message := "", item := some item.incrementViews },
         db.saveItem item.incrementViews) := by
      unfold viewItem
      rw [hitem]
    rw [key]
    exact ⟨rfl, hstored, rfl, rfl⟩
  · intro viewer uploader hup
    have hupid : uploader._id = item.uploadedBy := findUser_id db _ _ hup
    constructor
    · intro hne
      have key : viewItem db (some viewer) itemId =
          ({ status := 200, message := "", item := some item.incrementViews },
           db.saveItem item.incrementViews) := by
        unfold viewItem
        rw [hitem]
        simp only [hup]
        rw [if_pos (by rw [hupid]; exact hne)]
      rw [key]
      exact ⟨rfl, hstored, rfl, rfl⟩
    · intro heq
      unfold viewItem
      rw [hitem]
      simp only [hup]
      rw [if_neg (by rw [hupid]; exact not_not.mpr heq)]

theorem viewItem_spec_witness :
    ((viewItem scenarioDb none 10).2.findItem 10).map Item.views = some 1 ∧
    ((viewItem scenarioDb (some userB) 10).2.findItem 10).map Item.views = some 1 ∧
    ((viewItem scenarioDb (some userA) 10).2.findItem 10).map Item.views = some 0 :=
  have h := viewItem_spec scenarioDb itemX 10 rfl
  ⟨congrArg (Option.map Item.views) h.1.2.1,
   congrArg (Option.map Item.views) ((h.2 userB userA rfl).1 (by decide)).2.1,
   congrArg (fun r : Response × Db => (r.2.findItem 10).map Item.views)
     ((h.2 userA userA rfl).2 rfl)⟩

/-! ## Roles -/

theorem parseRole_some (role : String) (r : Role) (h : parseRole role = some r) :
    (role = "user" ∧ r = Role.user) ∨ (role = "admin" ∧ r = Role.admin) := by
  unfold parseRole at h
  split at h
  · next hu => cases h; exact Or.inl ⟨hu, rfl⟩
  · split at h
    · next ha => cases h; exact Or.inr ⟨ha, rfl⟩
    · cases h

theorem two_admins_other (l : List User) (hnd : (l.map (fun u => u._id)).Nodup)
    (id : ObjectId) (h : 2 ≤ (l.filter (fun u => u.role == Role.admin)).length) :
    ∃ a ∈ l, a.role = Role.admin ∧ a._id ≠ id := by
  have hl : l.Nodup := List.Nodup.of_map _ hnd
  have hf : (l.filter (fun u => u.role == Role.admin)).Nodup := hl.filter _
  have hinj := List.inj_on_of_nodup_map hnd
  cases hfl : l.filter (fun u => u.role == Role.admin) with
  | nil => rw [hfl] at h; simp at h
  | cons a rest =>
    cases rest with
    | nil => rw [hfl] at h; simp at h
    | cons b rest2 =>
      have ha : a ∈ l.filter (fun u => u.role == Role.admin) := by rw [hfl]; simp
      have hb : b ∈ l.filter (fun u => u.role == Role.admin) := by rw [hfl]; simp
      rw [List.mem_filter] at ha hb
      have hab : a ≠ b := by
        rw [hfl] at hf
        intro e
        have := (List.nodup_cons.1 hf).1
        exact this (by rw [e]; simp)
      have har : a.role = Role.admin := by simpa using ha.2
      have hbr : b.role = Role.admin := by simpa using hb.2
      by_cases hai : a._id = id
      · refine ⟨b, hb.1, hbr, ?_⟩
        intro hbi
        exact hab (hinj ha.1 hb.1 (hai.trans hbi.symm))
      · exact ⟨a, ha.1, har, hai⟩

/-- C28: in a store whose `_id`s are unique and which holds at least one admin,
the users collection still holds an admin after any role-update request; a
request that would make the only admin a plain user is answered 400 and leaves
the store as it was, and so is a request whose role is neither `user` nor
`admin`. -/
theorem updateRole_keeps_admin (db : Db) (userId : ObjectId) (role : String)
    (hnd : (db.users.map (fun u => u._id)).Nodup)
    (hadmin : ∃ u ∈ db.users, u.role = Role.admin) :
    (∃ u ∈ (updateRole db userId role).2.users, u.role = Role.admin) ∧
    (∀ user, db.findUser userId = some user → user.role = Role.admin → db.adminCount ≤ 1 →
      updateRole db userId "user" =
        ({ status := 400, message := "Cannot remove the last admin user" }, db)) ∧
    (role ≠ "user" → role ≠ "admin" →
      updateRole db userId role = ({ status := 400, message := "Invalid role" }, db)) := by
  refine ⟨?_, ?_, ?_⟩
  · unfold updateRole
    cases hpr : parseRole role with
    | none => exact hadmin
    | some newRole =>
      cases hfu : db.findUser userId with
      | none => exact hadmin
      | some user =>
        simp only
        by_cases hg : user.role = Role.admin ∧ newRole = Role.user ∧ db.adminCount ≤ 1
        · rw [if_pos hg]
          exact hadmin
        · rw [if_neg hg]
          have humem : user ∈ db.users := List.mem_of_find?_eq_some hfu
          have survive : ∀ a ∈ db.users, a.role = Role.admin → a._id ≠ user._id →
              ∃ u ∈ (db.saveUser { user with role := newRole }).users, u.role = Role.admin := by
            intro a ha har hne
            refine ⟨a, ?_, har⟩
            show a ∈ db.users.map _
            rw [List.mem_map]
            exact ⟨a, ha, by simp [hne]⟩
          cases newRole with
          | admin =>
            refine ⟨{ user with role := Role.admin }, ?_, rfl⟩
            show _ ∈ db.users.map _
            rw [List.mem_map]
            exact ⟨user, humem, by simp⟩
          | user =>
            by_cases hur : user.role = Role.admin
            · have hcount : 2 ≤ db.adminCount := by
                by_contra hc
                exact hg ⟨hur, rfl, by omega⟩
              obtain ⟨a, ha, har, hne⟩ := two_admins_other db.users hnd user._id hcount
              exact survive a ha har hne
            · obtain ⟨a, ha, har⟩ := hadmin
              have hne : a._id ≠ user._id := by
                intro e
                have := List.inj_on_of_nodup_map hnd ha humem e
                rw [this] at har
                exact hur har
              exact survive a ha har hne
  · intro user hfu hur hcount
    unfold updateRole
    have hp : parseRole "user" = some Role.user := rfl
    rw [hp]
    simp only [hfu]
    rw [if_pos ⟨hur, trivial, hcount⟩]
  · intro h1 h2
    unfold updateRole
    have hp : parseRole role = none := by
      unfold parseRole
      rw [if_neg h1, if_neg h2]
    rw [hp]

theorem updateRole_keeps_admin_witness :
    (∃ u ∈ (updateRole oneAdminDb 9 "user").2.users, u.role = Role.admin) ∧
    updateRole oneAdminDb 9 "user" =
      ({ status := 400, message := "Cannot remove the last admin user" }, oneAdminDb) :=
  have h := updateRole_keeps_admin oneAdminDb 9 "user" (by decide) ⟨adminUser, by decide, rfl⟩
  ⟨h.1, h.2.1 adminUser rfl rfl (by decide)⟩

/-! ## The lifecycle of an item -/

/-- C23, the failing input: item Y of user B has been rejected by moderation; B
asks for item X offering item Y, which the request route accepts since it only
checks who uploaded the offered item, and owner A accepts. The accept branch
assigns `status = 'swapped'` to both items without reading their status: item Y
goes from `rejected` to `swapped`. -/
theorem accept_moves_rejected_to_swapped :
    (rejectedOfferDb.findItem 20).map Item.status = some ItemStatus.rejected ∧
    (requestSwap rejectedOfferDb userB 10 none (some 20) 500 600 0).1.status = 201 ∧
    ((requestSwap rejectedOfferDb userB 10 none (some 20) 500 600 0).2.findItem 20).map
        Item.status = some ItemStatus.rejected ∧
    (respond (requestSwap rejectedOfferDb userB 10 none (some 20) 500 600 0).2 userA 500
        "accept" 7).1.status = 200 ∧
    ((respond (requestSwap rejectedOfferDb userB 10 none (some 20) 500 600 0).2 userA 500
        "accept" 7).2.findItem 20).map Item.status = some ItemStatus.swapped := by
  refine ⟨rfl, rfl, rfl, rfl, rfl⟩

/-! ## Creating and updating an item -/

theorem categoryErrors_nil (v : String) (h : categoryErrors v = []) : v ∈ categories := by
  unfold categoryErrors at h
  split at h
  · cases h
  · split at h
    · assumption
    · cases h

theorem sizeErrors_nil (v : String) (h : sizeErrors v = []) : v ∈ sizes := by
  unfold sizeErrors at h
  split at h
  · cases h
  · split at h
    · assumption
    · cases h

theorem conditionErrors_nil (v : String) (h : conditionErrors v = []) : v ∈ conditions := by
  unfold conditionErrors at h
  split at h
  · cases h
  · split at h
    · assumption
    · cases h

theorem pointValueErrors_nil (v : Int) (h : pointValueErrors v = []) : 1 ≤ v ∧ v ≤ 100 := by
  unfold pointValueErrors at h
  split at h
  · cases h
  · split at h
    · cases h
    · omega

theorem modifiedErrors_nil {α : Type} [DecidableEq α] (loaded assigned : α)
    (errors : α → List String) (h : modifiedErrors loaded assigned errors = []) :
    assigned = loaded ∨ errors assigned = [] := by
  unfold modifiedErrors at h
  split at h
  · next he => exact Or.inl he
  · exact Or.inr h

theorem createErrors_nil (item : Item) (h : createErrors item = []) : item.fieldsValid := by
  unfold createErrors at h
  simp only [List.append_eq_nil] at h
  obtain ⟨⟨⟨⟨⟨⟨⟨_, _⟩, hc⟩, _⟩, hs⟩, hd⟩, _⟩, hp⟩ := h
  exact ⟨categoryErrors_nil _ hc, sizeErrors_nil _ hs, conditionErrors_nil _ hd,
    pointValueErrors_nil _ hp⟩

theorem updateErrors_nil (item item1 : Item) (hv : item.fieldsValid)
    (h : updateErrors item item1 = []) : item1.fieldsValid := by
  unfold updateErrors at h
  simp only [List.append_eq_nil] at h
  obtain ⟨⟨⟨⟨⟨⟨⟨_, _⟩, hc⟩, _⟩, hs⟩, hd⟩, _⟩, hp⟩ := h
  obtain ⟨v1, v2, v3, v4, v5⟩ := hv
  refine ⟨?_, ?_, ?_, ?_⟩
  · rcases modifiedErrors_nil _ _ _ hc with e | e
    · rw [e]; exact v1
    · exact categoryErrors_nil _ e
  · rcases modifiedErrors_nil _ _ _ hs with e | e
    · rw [e]; exact v2
    · exact sizeErrors_nil _ e
  · rcases modifiedErrors_nil _ _ _ hd with e | e
    · rw [e]; exact v3
    · exact conditionErrors_nil _ e
  · rcases modifiedErrors_nil _ _ _ hp with e | e
    · rw [e]; exact ⟨v4, v5⟩
    · exact pointValueErrors_nil _ e

theorem createItem_cases (db : Db) (reqUser : User) (body : ItemBody) (newId : ObjectId) :
    ((createItem db reqUser body newId).1.status = 400 ∧
      (createItem db reqUser body newId).2 = db) ∨
    (createErrors (newItem reqUser body newId) = [] ∧
      1 ≤ (body.images.getD []).length ∧ (body.images.getD []).length ≤ 5 ∧
      falsy body.type = false ∧
      createItem db reqUser body newId =
        ({ status := 201, message := "Item created successfully",
           item := ((db.createItem (newItem reqUser body newId)).saveUser
             (reqUser.updateStats StatField.itemsListed)).findItem newId },
         (db.createItem (newItem reqUser body newId)).saveUser
           (reqUser.updateStats StatField.itemsListed))) := by
  unfold createItem
  split
  · exact Or.inl ⟨rfl, rfl⟩
  · next hreq =>
    split
    · exact Or.inl ⟨rfl, rfl⟩
    · next h0 =>
      split
      · exact Or.inl ⟨rfl, rfl⟩
      · next h5 =>
        split
        · exact Or.inl ⟨rfl, rfl⟩
        · next herr =>
          refine Or.inr ⟨not_not.mp herr, by omega, by omega, ?_, rfl⟩
          simp only [not_or] at hreq
          simpa using hreq.2.2.2.1

theorem updateItem_cases (db : Db) (reqUser : User) (itemId : ObjectId) (body : ItemBody) :
    ((updateItem db reqUser itemId body).1.status ≠ 200 ∧
      (updateItem db reqUser itemId body).2 = db) ∨
    (∃ item, db.findItem itemId = some item ∧ item.uploadedBy = reqUser._id ∧
      (item.status = ItemStatus.pending ∨ item.status = ItemStatus.available) ∧
      updateErrors item (applyBody item body) = [] ∧
      (updateItem db reqUser itemId body).1.status = 200 ∧
      (updateItem db reqUser itemId body).2 = db.saveItem (applyBody item body)) := by
  unfold updateItem
  cases hitem : db.findItem itemId with
  | none => exact Or.inl ⟨by simp, rfl⟩
  | some item =>
    simp only
    split
    · exact Or.inl ⟨by simp, rfl⟩
    · next ho =>
      split
      · exact Or.inl ⟨by simp, rfl⟩
      · next hs =>
        split
        · exact Or.inl ⟨by simp, rfl⟩
        · next herr =>
          exact Or.inr ⟨item, rfl, not_not.mp ho, not_not.mp hs, not_not.mp herr, rfl, rfl⟩

@[simp]
theorem findUser_createItem (db : Db) (it : Item) (i : ObjectId) :
    (db.createItem it).findUser i = db.findUser i := rfl

/-- C24 fails as stated: a create request whose `type` is `Spaceship`, which no
category lists, is answered 201 and the item is stored with that type, since the
schema only requires `type` to be present. Besides, an update request with
`images: []` on the item made from `coatBody` is answered 200 and the item is
stored without any image: the bounds on the number of images are checked by the
create route only. -/
theorem create_accepts_unlisted_type :
    (createItem scenarioDb userB spaceshipBody 30).1.status = 201 ∧
    ((createItem scenarioDb userB spaceshipBody 30).2.findItem 30).map Item.type =
      some "Spaceship" ∧
    "Spaceship" ∉ listedTypes ∧
    (createItem scenarioDb userB coatBody 30).2 = coatDb ∧
    (updateItem coatDb userB 30 { images := some [] }).1.status = 200 ∧
    ((updateItem coatDb userB 30 { images := some [] }).2.findItem 30).map
        (fun i => i.images.length) = some 0 := by
  refine ⟨rfl, rfl, by decide, rfl, rfl, rfl⟩

/-- C24, amended: if every stored item has `category`, `size` and `condition` in
their enumerations and `1 ≤ pointValue ≤ 100`, then so has every stored item
after any create request and after any owner update request; an item stored by
a create request also has a non-empty `type` and between 1 and 5 images; and a
create request, or an update request on such an item, that would violate one of
these constraints is rejected with the store left as it was. -/
theorem item_constraints_kept (db : Db) (reqUser : User) (body : ItemBody)
    (hvalid : ∀ i ∈ db.items, i.fieldsValid) :
    (∀ newId : ObjectId,
      (∀ i ∈ (createItem db reqUser body newId).2.items, i.fieldsValid) ∧
      ((createItem db reqUser body newId).1.status = 201 →
        ∃ item, (createItem db reqUser body newId).2.items = db.items ++ [item] ∧
          item.type ≠ "" ∧ 1 ≤ item.images.length ∧ item.images.length ≤ 5) ∧
      ((body.category.getD "" ∉ categories ∨ body.size.getD "" ∉ sizes ∨
          body.condition.getD "" ∉ conditions ∨ (body.images.getD []).length < 1 ∨
          5 < (body.images.getD []).length ∨ body.pointValue.getD 0 < 1 ∨
          100 < body.pointValue.getD 0) →
        (createItem db reqUser body newId).1.status = 400 ∧
        (createItem db reqUser body newId).2 = db)) ∧
    (∀ itemId : ObjectId,
      (∀ i ∈ (updateItem db reqUser itemId body).2.items, i.fieldsValid) ∧
      (∀ item, db.findItem itemId = some item → ¬ (applyBody item body).fieldsValid →
        (updateItem db reqUser itemId body).1.status ≠ 200 ∧
        (updateItem db reqUser itemId body).2 = db)) := by
  constructor
  · intro newId
    rcases createItem_cases db reqUser body newId with ⟨h400, hdb⟩ | ⟨herr, h1, h5, hty, key⟩
    · refine ⟨by rw [hdb]; exact hvalid, ?_, fun _ => ⟨h400, hdb⟩⟩
      intro h201
      rw [h400] at h201
      exact absurd h201 (by decide)
    · have hv := createErrors_nil _ herr
      have hitems : (createItem db reqUser body newId).2.items =
          db.items ++ [newItem reqUser body newId] := by rw [key]; rfl
      refine ⟨?_, fun _ => ⟨_, hitems, ?_, h1, h5⟩, ?_⟩
      · intro i hi
        rw [hitems, List.mem_append, List.mem_singleton] at hi
        rcases hi with hi | hi
        · exact hvalid i hi
        · rw [hi]; exact hv
      · intro he
        have he1 : body.type.getD "" = "" := he
        simp [falsy, he1] at hty
      · intro hviol
        obtain ⟨v1, v2, v3, v4, v5⟩ := hv
        have w1 : body.category.getD "" ∈ categories := v1
        have w2 : body.size.getD "" ∈ sizes := v2
        have w3 : body.condition.getD "" ∈ conditions := v3
        have w4 : 1 ≤ body.pointValue.getD 0 := v4
        have w5 : body.pointValue.getD 0 ≤ 100 := v5
        rcases hviol with h | h | h | h | h | h | h
        · exact absurd w1 h
        · exact absurd w2 h
        · exact absurd w3 h
        · omega
        · omega
        · omega
        · omega
  · intro itemId
    rcases updateItem_cases db reqUser itemId body with
      ⟨hst, hdb⟩ | ⟨item, hitem, _, _, herr, h200, hdb⟩
    · exact ⟨by rw [hdb]; exact hvalid, fun _ _ _ => ⟨hst, hdb⟩⟩
    · have hmem : item ∈ db.items := List.mem_of_find?_eq_some hitem
      have hv := updateErrors_nil item (applyBody item body) (hvalid item hmem) herr
      refine ⟨?_, ?_⟩
      · intro i hi
        rw [hdb] at hi
        have hi1 : i ∈ db.items.map
            (fun x => if x._id == (applyBody item body)._id then applyBody item body else x) := hi
        rw [List.mem_map] at hi1
        obtain ⟨x, hx, hxi⟩ := hi1
        by_cases hc : (x._id == (applyBody item body)._id) = true
        · rw [if_pos hc] at hxi
          rw [← hxi]; exact hv
        · rw [if_neg hc] at hxi
          rw [← hxi]; exact hvalid x hx
      · intro item1 hitem1 hbad
        rw [hitem] at hitem1
        cases hitem1
        exact absurd hv hbad

theorem item_constraints_kept_witness :
    (∀ i ∈ (createItem validDb userB coatBody 31).2.items, i.fieldsValid) ∧
    (∀ i ∈ (updateItem validDb userB 30 { pointValue := some 40 }).2.items, i.fieldsValid) ∧
    (updateItem validDb userB 30 { pointValue := some 400 }).1.status ≠ 200 ∧
    (updateItem validDb userB 30 { pointValue := some 400 }).2 = validDb :=
  have hv : ∀ i ∈ validDb.items, i.fieldsValid := by
    intro i hi
    have : i = coatItem := by simpa [validDb] using hi
    rw [this]
    exact ⟨by decide, by decide, by decide, by decide, by decide⟩
  ⟨((item_constraints_kept validDb userB coatBody hv).1 31).1,
   ((item_constraints_kept validDb userB { pointValue := some 40 } hv).2 30).1,
   (((item_constraints_kept validDb userB { pointValue := some 400 } hv).2 30).2 coatItem rfl
     (by
       intro h
       exact absurd h.2.2.2.2 (by decide))).1,
   (((item_constraints_kept validDb userB { pointValue := some 400 } hv).2 30).2 coatItem rfl
     (by
       intro h
       exact absurd h.2.2.2.2 (by decide))).2⟩

/-- C25: whatever the body of a create request holds, a request answered 201 has
added exactly one item, which has status `pending`, the caller as `uploadedBy`,
no swap request and 0 views, and has raised `stats.itemsListed` of the caller by
exactly 1; a request that is not answered 201 leaves the whole store, so
`itemsListed`, as it was. -/
theorem createItem_effects (db : Db) (reqUser : User) (body : ItemBody) (newId : ObjectId)
    (hfresh : db.findUser reqUser._id = some reqUser) :
    ((createItem db reqUser body newId).1.status = 201 →
      ∃ item, (createItem db reqUser body newId).2.items = db.items ++ [item] ∧
        item._id = newId ∧ item.status = ItemStatus.pending ∧
        item.uploadedBy = reqUser._id ∧ item.swapRequests = [] ∧ item.views = 0 ∧
        (createItem db reqUser body newId).2.findUser reqUser._id =
          some { reqUser with
            stats := { reqUser.stats with
              itemsListed := reqUser.stats.itemsListed + 1 } }) ∧
    ((createItem db reqUser body newId).1.status ≠ 201 →
      (createItem db reqUser body newId).2 = db) := by
  rcases createItem_cases db reqUser body newId with ⟨h400, hdb⟩ | ⟨_, _, _, _, key⟩
  · refine ⟨?_, fun _ => hdb⟩
    intro h201
    rw [h400] at h201
    exact absurd h201 (by decide)
  · rw [key]
    refine ⟨fun _ => ⟨newItem reqUser body newId, rfl, rfl, rfl, rfl, rfl, rfl, ?_⟩,
      fun hne => absurd rfl hne⟩
    show ((db.createItem (newItem reqUser body newId)).saveUser
      (reqUser.updateStats StatField.itemsListed)).findUser reqUser._id = _
    rw [findUser_saveUser]
    have : reqUser._id = (reqUser.updateStats StatField.itemsListed)._id := rfl
    rw [if_pos this, findUser_createItem, hfresh]
    simp [User.updateStats, Stats.set, Stats.get, orZero_eq]

theorem createItem_effects_witness :
    (createItem scenarioDb userB forgedBody 30).1.status = 201 ∧
    (createItem scenarioDb userB forgedBody 30).2.items = scenarioDb.items ++ [coatItem] ∧
    ∃ item, (createItem scenarioDb userB forgedBody 30).2.items = scenarioDb.items ++ [item] ∧
      item._id = 30 ∧ item.status = ItemStatus.pending ∧
      item.uploadedBy = userB._id ∧ item.swapRequests = [] ∧ item.views = 0 ∧
      (createItem scenarioDb userB forgedBody 30).2.findUser userB._id =
        some { userB with
          stats := { userB.stats with itemsListed := userB.stats.itemsListed + 1 } } :=
  ⟨rfl, rfl, (createItem_effects scenarioDb userB forgedBody 30 rfl).1 rfl⟩

/-- C26: whatever keys the body of an update request holds, every stored item
has after the request the `status`, `uploadedBy`, `swapRequests` and `views` it
had before, and users and Swap records are untouched; the request is answered
403 with the store unchanged when the caller is not the uploader of the item,
and 400 with the store unchanged when the status of the item is neither
`pending` nor `available`. -/
theorem updateItem_frame (db : Db) (reqUser : User) (itemId : ObjectId) (body : ItemBody) :
    (∀ i : ObjectId,
      ((updateItem db reqUser itemId body).2.findItem i).map Item.frame =
        (db.findItem i).map Item.frame) ∧
    (updateItem db reqUser itemId body).2.users = db.users ∧
    (updateItem db reqUser itemId body).2.swaps = db.swaps ∧
    (∀ item, db.findItem itemId = some item →
      (item.uploadedBy ≠ reqUser._id →
        updateItem db reqUser itemId body =
          ({ status := 403, message := "Not authorized to update this item" }, db)) ∧
      (item.uploadedBy = reqUser._id →
        ¬ (item.status = ItemStatus.pending ∨ item.status = ItemStatus.available) →
        updateItem db reqUser itemId body =
          ({ status := 400, message := "Cannot update item with current status" }, db))) := by
  refine ⟨?_, ?_, ?_, ?_⟩
  · intro i
    rcases updateItem_cases db reqUser itemId body with
      ⟨_, hdb⟩ | ⟨item, hitem, _, _, _, _, hdb⟩
    · rw [hdb]
    · rw [hdb, findItem_saveItem]
      have hid : item._id = itemId := findItem_id db _ _ hitem
      by_cases hi : i = (applyBody item body)._id
      · rw [if_pos hi]
        have hi2 : i = itemId := hi.trans hid
        subst hi2
        rw [hitem]
        rfl
      · rw [if_neg hi]
  · rcases updateItem_cases db reqUser itemId body with
      ⟨_, hdb⟩ | ⟨item, _, _, _, _, _, hdb⟩
    · rw [hdb]
    · rw [hdb]; rfl
  · rcases updateItem_cases db reqUser itemId body with
      ⟨_, hdb⟩ | ⟨item, _, _, _, _, _, hdb⟩
    · rw [hdb]
    · rw [hdb]; rfl
  · intro item hitem
    constructor
    · intro hne
      unfold updateItem
      rw [hitem]
      simp only
      rw [if_pos hne]
    · intro ho hs
      unfold updateItem
      rw [hitem]
      simp only
      rw [if_neg (not_not.mpr ho), if_pos hs]

end ReWear
